import Mathlib

/-!
# Tunnel connection of the gt client (`client/conn.go`)

A shallow embedding of `conn.init`, `conn.IsTimeout`, `conn.readLoop`, `conn.dial`,
`conn.processData` and `conn.processP2P`, followed by theorems about them.

Conventions of the embedding:

* a byte is a `Nat`; the Go conversion `byte(x)` is `x % 256`, `uint16(x)` is `x % 65536`;
* a Go `string` or `[]byte` whose bytes are written on the wire is a `List Nat`;
* a run-time panic (index out of range, nil dereference) is `none`;
* constants of the packages `predef` and `connection` are not part of the sources and are
  taken as a parameter (`Consts`);
* the tunnel socket is the list of what it delivers (`Tok`): bytes, and failures of reads;
* the calls into collaborators are recorded in a trace (`Act`), and what they return during
  one iteration of the read loop is a parameter of that iteration (`Ans`);
* the goroutines of the tasks are outside the embedding: the registry is the one the read
  loop sees between two of its own steps.
-/

set_option linter.unusedTactic false
set_option linter.unreachableTactic false
set_option linter.unnecessarySeqFocus false

namespace Gt

/-! ## Collaborator constants -/

/-- Constants of the packages `predef` and `connection` used by `conn.go`.  Their values are
not in the sources, so every definition takes them as a parameter. -/
structure Consts where
  /-- `predef.MagicNumber`, a byte constant. -/
  magicNumber : Nat
  /-- `predef.OptionAndNextOption`. -/
  optionAndNextOption : List Nat
  /-- `predef.OpenTCPPort`. -/
  openTCPPort : List Nat
  /-- `predef.IDAsHostPrefix`. -/
  idAsHostPrefix : List Nat
  /-- `predef.OpenHost`. -/
  openHost : List Nat
  /-- `connection.PingSignal` (uint32). -/
  pingSignal : Nat
  /-- `connection.CloseSignal` (uint32). -/
  closeSignal : Nat
  /-- `connection.ReadySignal` (uint32). -/
  readySignal : Nat
  /-- `connection.ErrorSignal` (uint32). -/
  errorSignal : Nat
  /-- `connection.InfoSignal` (uint32). -/
  infoSignal : Nat
  /-- `predef.Data` (uint16 task option). -/
  data : Nat
  /-- `predef.ServicesData` (uint16 task option). -/
  servicesData : Nat
  /-- `predef.Close` (uint16 task option). -/
  close : Nat
deriving Repr, DecidableEq

/-- The case constants of the two `switch` statements of `readLoop` are pairwise different
(Go rejects duplicate constant cases at compile time). -/
def Consts.Distinct (P : Consts) : Prop :=
  [P.pingSignal, P.closeSignal, P.readySignal, P.errorSignal, P.infoSignal].Nodup ∧
  [P.data, P.servicesData, P.close].Nodup

instance (P : Consts) : Decidable P.Distinct := by
  unfold Consts.Distinct; infer_instance

/-! ## Configuration -/

/-- The fields of `service` that `conn.go` reads. -/
structure Service where
  /-- `LocalURL.Scheme`. -/
  scheme : String
  /-- `LocalURL.Host`. -/
  host : String
  /-- `RemoteTCPRandom`, a `*bool`: `none` is the nil pointer. -/
  remoteTCPRandom : Option Bool
  /-- `RemoteTCPPort` (uint16). -/
  remoteTCPPort : Nat
  /-- `HostPrefix`, as bytes. -/
  hostPrefix : List Nat
  /-- `UseLocalAsHTTPHost`. -/
  useLocalAsHTTPHost : Bool
  /-- `LocalTimeout` (a `time.Duration`, signed). -/
  localTimeout : Int
deriving Repr, DecidableEq

/-- The part of `Client` that the tunnel reads: `config.ID`, `config.Secret`,
`config.RemoteTimeout` and `services`. -/
structure Client where
  /-- `config.ID`, as bytes. -/
  id : List Nat
  /-- `config.Secret`, as bytes. -/
  secret : List Nat
  /-- `config.RemoteTimeout` (a `time.Duration`, signed). -/
  remoteTimeout : Int
  /-- `services`. -/
  services : List Service
deriving Repr, DecidableEq

/-! ## Go slice primitives -/

/-- The statement `buf[i] = v`; an index outside the slice panics. -/
def store (buf : List Nat) (i v : Nat) : Option (List Nat) :=
  if i < buf.length then some (buf.set i v) else none

/-- The call `copy(buf[i:], src)`: copies `min(len(buf) - i, len(src))` bytes and returns the
slice together with that number; `buf[i:]` panics when `i > len(buf)`. -/
def copyAt (buf : List Nat) (i : Nat) (src : List Nat) : Option (List Nat × Nat) :=
  if i ≤ buf.length then
    let n := min (buf.length - i) src.length
    some (buf.take i ++ src.take n ++ buf.drop (i + n), n)
  else none

/-! ## `conn.init` -/

/-- The body of the `for i, service := range c.client.services` loop of `init` for one
service: `n` is `len(c.client.services)`, the state is `(buf, bufIndex)`. -/
def initService (P : Consts) (id : List Nat) (n i : Nat) (service : Service)
    (buf : List Nat) (bufIndex : Nat) : Option (List Nat × Nat) := do
  let (buf, bufIndex) ←
    if (i : Int) ≠ (n : Int) - 1 then do
      let (buf, optionLen) ← copyAt buf bufIndex P.optionAndNextOption
      pure (buf, bufIndex + optionLen)
    else pure (buf, bufIndex)
  if service.scheme = "tcp" then do
    let (buf, optionLen) ← copyAt buf bufIndex P.openTCPPort
    let bufIndex := bufIndex + optionLen
    let random ← service.remoteTCPRandom
    let buf ← if random then store buf bufIndex 1 else store buf bufIndex 0
    let bufIndex := bufIndex + 1
    let buf ← store buf bufIndex ((service.remoteTCPPort / 256) % 256)
    let buf ← store buf (bufIndex + 1) (service.remoteTCPPort % 256)
    pure (buf, bufIndex + 2)
  else if service.hostPrefix = id then do
    let (buf, optionLen) ← copyAt buf bufIndex P.idAsHostPrefix
    pure (buf, bufIndex + optionLen)
  else do
    let (buf, optionLen) ← copyAt buf bufIndex P.openHost
    let bufIndex := bufIndex + optionLen
    let buf ← store buf bufIndex (service.hostPrefix.length % 256)
    let bufIndex := bufIndex + 1
    let (buf, hostPrefixLen) ← copyAt buf bufIndex service.hostPrefix
    pure (buf, bufIndex + hostPrefixLen)

/-- The `range` loop of `init` over the services that remain, `i` being the index of the
first of them. -/
def initServices (P : Consts) (id : List Nat) (n : Nat) :
    List Service → Nat → List Nat → Nat → Option (List Nat × Nat)
  | [], _, buf, bufIndex => some (buf, bufIndex)
  | service :: rest, i, buf, bufIndex => do
    let (buf, bufIndex) ← initService P id n i service buf bufIndex
    initServices P id n rest (i + 1) buf bufIndex

/-- `conn.init`: `buf` is the slice returned by `c.Connection.Reader.GetBuf()`; the result
is the slice `buf[:bufIndex]` handed to `c.Conn.Write`, or `none` when `init` panics. -/
def init (P : Consts) (c : Client) (buf : List Nat) : Option (List Nat) := do
  let bufIndex := 0
  let buf ← store buf bufIndex P.magicNumber
  let bufIndex := bufIndex + 1
  let buf ← store buf bufIndex 0x01
  let bufIndex := bufIndex + 1
  -- id
  let buf ← store buf bufIndex (c.id.length % 256)
  let bufIndex := bufIndex + 1
  let (buf, idLen) ← copyAt buf bufIndex c.id
  let bufIndex := bufIndex + idLen
  -- secret
  let buf ← store buf bufIndex (c.secret.length % 256)
  let bufIndex := bufIndex + 1
  let (buf, secretLen) ← copyAt buf bufIndex c.secret
  let bufIndex := bufIndex + secretLen
  -- services
  let (buf, bufIndex) ← initServices P c.id c.services.length c.services 0 buf bufIndex
  if bufIndex ≤ buf.length then some (buf.take bufIndex) else none

/-- A concrete choice of the collaborator constants, to instantiate the general statements
at explicit inputs. -/
def demoConsts : Consts where
  magicNumber := 0xF0
  optionAndNextOption := [0xFF, 0xFF]
  openTCPPort := [0x00, 0x03]
  idAsHostPrefix := [0x00, 0x01]
  openHost := [0x00, 0x02]
  pingSignal := 0xFFFFFFFF
  closeSignal := 0xFFFFFFFE
  readySignal := 0xFFFFFFFD
  errorSignal := 0xFFFFFFFC
  infoSignal := 0xFFFFFFFB
  data := 0
  servicesData := 2
  close := 1

/-! ## Wire format of the handshake, as lists -/

/-- The bytes of one service announcement: the shape is chosen by the scheme and by the
comparison of the host prefix with the client id. -/
def announcement (P : Consts) (id : List Nat) (s : Service) : List Nat :=
  if s.scheme = "tcp" then
    P.openTCPPort ++
      [if s.remoteTCPRandom = some true then 1 else 0,
        s.remoteTCPPort / 256 % 256, s.remoteTCPPort % 256]
  else if s.hostPrefix = id then P.idAsHostPrefix
  else P.openHost ++ (s.hostPrefix.length % 256) :: s.hostPrefix

/-- The services section: every service but the last one is preceded by the
`OptionAndNextOption` marker. -/
def servicesBytes (P : Consts) (id : List Nat) : List Service → List Nat
  | [] => []
  | [s] => announcement P id s
  | s :: t :: rest =>
    P.optionAndNextOption ++ announcement P id s ++ servicesBytes P id (t :: rest)

/-- The fixed head of the handshake: magic, version, length-prefixed id and secret. -/
def headerBytes (P : Consts) (c : Client) : List Nat :=
  [P.magicNumber, 0x01] ++ (c.id.length % 256) :: c.id ++ (c.secret.length % 256) :: c.secret

/-- The whole handshake message. -/
def handshakeBytes (P : Consts) (c : Client) : List Nat :=
  headerBytes P c ++ servicesBytes P c.id c.services

/-- The services section in the words of the specification: the announcements in order,
with the `OptionAndNextOption` marker between two consecutive ones. -/
def servicesBytesSpec (P : Consts) (id : List Nat) (services : List Service) : List Nat :=
  List.intercalate P.optionAndNextOption (services.map (announcement P id))

/-- Every `tcp` service carries a non-nil `RemoteTCPRandom` pointer. -/
def RandomSet (services : List Service) : Prop :=
  ∀ s ∈ services, s.scheme = "tcp" → s.remoteTCPRandom ≠ none

instance (services : List Service) : Decidable (RandomSet services) := by
  unfold RandomSet; infer_instance

/-- The bytes `initService` appends: the marker unless the service is the last one, then the
announcement. -/
def serviceChunk (P : Consts) (id : List Nat) (n i : Nat) (s : Service) : List Nat :=
  (if (i : Int) ≠ (n : Int) - 1 then P.optionAndNextOption else []) ++ announcement P id s

/-! ## The read loop -/

/-- The dynamic types of `error` values that `conn.go` tells apart. -/
inductive Err where
  /-- A `*net.OpError`: its field `Op` and the result of its method `Timeout()`. -/
  | opError (op : String) (timeout : Bool)
  /-- A `*bufio.WriteErr`, the write error marked by the sink. -/
  | writeErr (tag : Nat)
  /-- An error of any other dynamic type (`io.EOF`, ...). -/
  | other (tag : Nat)
deriving Repr, DecidableEq

/-- The error a read returns at the end of the inbound stream (`io.EOF`). -/
def Err.eof : Err := Err.other 0

/-- What the tunnel socket delivers to the buffered reader, in order: a byte, or a failure
of the read under way. -/
inductive Tok where
  | byte (b : Nat)
  | fail (e : Err)
deriving Repr, DecidableEq

/-- Modelled from the spec: `bufio.Reader.Peek(n)`, which is not part of the sources,
"non-consuming, returns a slice of exactly `n` bytes or fails".  A failure of the socket is
reported once: the result carries the stream without the failure reported. -/
def peek : Nat → List Tok → Except Err (List Nat) × List Tok
  | 0, inp => (.ok [], inp)
  | _ + 1, [] => (.error Err.eof, [])
  | _ + 1, Tok.fail e :: rest => (.error e, rest)
  | n + 1, Tok.byte b :: rest =>
    match peek n rest with
    | (.ok bs, _) => (.ok (b :: bs), Tok.byte b :: rest)
    | (.error e, rest') => (.error e, Tok.byte b :: rest')

/-- Modelled from the spec: `bufio.Reader.Discard(n)`, which is not part of the sources,
"consuming": skips `n` bytes, or fails at the first failure of the socket. -/
def discard : Nat → List Tok → Option Err × List Tok
  | 0, inp => (none, inp)
  | _ + 1, [] => (some Err.eof, [])
  | _ + 1, Tok.fail e :: rest => (some e, rest)
  | n + 1, Tok.byte _ :: rest => discard n rest

/-- Modelled from the spec: what a read of up to `n` bytes from `bufio.Reader`, which is not
part of the sources, obtains: the bytes read, the stream left, and the failure that stopped
the read early. -/
def readBytes : Nat → List Tok → List Nat × List Tok × Option Err
  | 0, inp => ([], inp, none)
  | _ + 1, [] => ([], [], some Err.eof)
  | _ + 1, Tok.fail e :: rest => ([], rest, some e)
  | n + 1, Tok.byte b :: rest =>
    let r := readBytes n rest
    (b :: r.1, r.2.1, r.2.2)

/-- The expression `uint32(p[3]) | uint32(p[2])<<8 | uint32(p[1])<<16 | uint32(p[0])<<24`. -/
def be32 (p : List Nat) : Nat :=
  (p.getD 3 0 % 256) ||| ((p.getD 2 0 % 256) <<< 8) ||| ((p.getD 1 0 % 256) <<< 16) |||
    ((p.getD 0 0 % 256) <<< 24)

/-- The expression `uint16(p[1]) | uint16(p[0])<<8`. -/
def be16 (p : List Nat) : Nat :=
  (p.getD 1 0 % 256) ||| ((p.getD 0 0 % 256) <<< 8)

/-- An `httpTask`: the backend connection it owns. -/
structure HttpTask where
  conn : Nat
deriving Repr, DecidableEq

/-- A `peerTask`: its id. -/
structure PeerTask where
  id : Nat
deriving Repr, DecidableEq

/-- The calls `conn.go` makes into its collaborators, as recorded in the trace. -/
inductive Act where
  /-- `c.Conn.SetReadDeadline(time.Now().Add(timeout))`. -/
  | setReadDeadline (timeout : Int)
  /-- `c.Connection.SendPingSignal()`. -/
  | sendPing
  /-- `c.SendCloseSignal()`. -/
  | sendClose
  /-- `c.client.idleManager.ChangeToWait(connID)`. -/
  | changeToWait
  /-- `c.client.addTunnel(c)`. -/
  | addTunnel
  /-- `connection.Info(infoCode).ReadInfo(c.Reader)`. -/
  | readInfo (code : Nat)
  /-- `respAndClose(taskID, c, data)`. -/
  | respAndClose (taskID : Nat) (data : List String)
  /-- `c.client.apiServer.Listener.AcceptCh() <- t.apiConn`. -/
  | acceptCh (taskID : Nat)
  /-- `r.WriteTo(t.apiConn.PipeWriter)`, with the bytes delivered. -/
  | pipeWrite (taskID : Nat) (bytes : List Nat)
  /-- `net.Dial("tcp", host)`. -/
  | dial (host : String)
  /-- `task.setHost(host)`. -/
  | setHost (conn : Nat) (host : String)
  /-- `go task.process(connID, taskID, c, localTimeout)`. -/
  | spawn (taskID conn : Nat) (localTimeout : Int)
  /-- `r.WriteTo(task)`, with the bytes delivered to the task. -/
  | writeTo (conn : Nat) (bytes : List Nat)
  /-- `task.conn.SetReadDeadline(time.Now().Add(localTimeout))`. -/
  | taskSetReadDeadline (conn : Nat) (localTimeout : Int)
  /-- `t.CloseByRemote()`. -/
  | closeByRemote (conn : Nat)
  /-- `task.Close()`. -/
  | taskClose (conn : Nat)
  /-- `c.Connection.CloseOnce()`. -/
  | closeOnce
  /-- `c.client.removeTunnel(c)`. -/
  | removeTunnel
  /-- `c.onTunnelClose()`. -/
  | onTunnelClose
  /-- `pool.PutReader(c.Reader)`. -/
  | putReader
deriving Repr, DecidableEq

/-- The state of a tunnel: the fields of `conn` and of its client that `conn.go` changes, the
local variables of `readLoop`, the inbound stream and the trace of collaborator calls.  The
goroutines of the tasks are not part of the state: the read loop changes the registry where it
binds a task, and the exit of a task is the separate step `remove`. -/
structure State where
  /-- `c.tasks`, the registry. -/
  tasks : List (Nat × HttpTask)
  /-- `c.stuns`. -/
  stuns : List String
  /-- `c.service`, `none` being the nil pointer. -/
  service : Option Service
  /-- `c.Closing`. -/
  closing : Nat
  /-- `c.client.peers`; a key can be bound to the nil pointer. -/
  peers : List (Nat × Option PeerTask)
  /-- `err` of `readLoop`. -/
  err : Option Err
  /-- `pings` of `readLoop`. -/
  pings : Int
  /-- `lastPing` of `readLoop`. -/
  lastPing : Int
  /-- `isClosing` of `readLoop`. -/
  isClosing : Bool
  /-- What `c.Reader` has still to deliver. -/
  inp : List Tok
  /-- The collaborator calls made so far, oldest first. -/
  trace : List Act
deriving Repr, DecidableEq

/-- Appends a call to the trace. -/
def State.log (s : State) (a : Act) : State :=
  { s with trace := s.trace ++ [a] }

/-- The state in which `readLoop` starts on a connection made by `newConn`. -/
def State.fresh (stuns : List String) (peers : List (Nat × Option PeerTask))
    (inp : List Tok) : State where
  tasks := []
  stuns := stuns
  service := none
  closing := 0
  peers := peers
  err := none
  pings := 0
  lastPing := 0
  isClosing := false
  inp := inp
  trace := []

/-- The result of one attempt of `net.Dial` and of the `setHost` that may follow. -/
structure DialAns where
  /-- `net.Dial("tcp", host)`: the connection, or the error. -/
  netDial : Except Err Nat
  /-- `task.setHost(host)`. -/
  setHost : Option Err

/-- The answers of the collaborators during one iteration of the read loop. -/
structure Ans where
  /-- `c.Conn.SetReadDeadline`. -/
  setReadDeadline : Option Err
  /-- `c.Connection.SendPingSignal()`. -/
  sendPing : Option Err
  /-- `c.client.idleManager.ChangeToWait(connID)`. -/
  changeToWait : Bool
  /-- `ReadInfo(c.Reader)`: the number of bytes it reads, or its error. -/
  readInfo : Except Err Nat
  /-- The attempts of `c.dial()`, by number. -/
  dial : Nat → DialAns
  /-- The writer the payload is copied into: `none` takes every byte, `some (k, e)` takes
  `k` bytes and then fails with `e`. -/
  sink : Option (Nat × Err)
  /-- `task.conn.SetReadDeadline`. -/
  backendDeadline : Option Err

/-- The key lookup `m[k]` of a Go map. -/
def lookup {β : Type} (k : Nat) (m : List (Nat × β)) : Option β :=
  (m.find? (fun p => p.1 == k)).map Prod.snd

/-- The assignment `m[k] = v` of a Go map: a prior binding of `k` is replaced. -/
def insert {β : Type} (k : Nat) (v : β) (m : List (Nat × β)) : List (Nat × β) :=
  (k, v) :: m.filter (fun p => p.1 != k)

/-- `conn.tasksLen`. -/
def tasksLen (s : State) : Nat := s.tasks.length

/-- `conn.IsTimeout`: for a `*net.OpError` whose `Timeout()` holds a Ping is sent, and the
result is true when that succeeds. -/
def isTimeout (a : Ans) (e : Err) (s : State) : Bool × State :=
  match e with
  | Err.opError _ true =>
    let s := s.log Act.sendPing
    if a.sendPing = none then (true, s) else (false, s)
  | _ => (false, s)

/-- `conn.Close`; the tasks are closed in the order of the registry (Go leaves the order of
the iteration over a map open). -/
def close (s : State) : State :=
  if s.closing ≠ 0 then s
  else
    let s := { s with closing := 1 }
    let s := { s with trace := s.trace ++ s.tasks.map (fun (p : Nat × HttpTask) => Act.taskClose p.2.conn) }
    s.log Act.closeOnce

/-- Modelled from the spec: `bufio.LimitedReader.Peek(n)`, which is not part of the sources;
the limited reader "caps reads to an announced payload length", here `limit`, so a peek
beyond it fails. -/
def limitedPeek (n limit : Nat) (inp : List Tok) : Except Err (List Nat) × List Tok :=
  if n ≤ limit then peek n inp else (.error Err.eof, inp)

/-- Modelled from the spec: `bufio.LimitedReader.WriteTo(w)`, which is not part of the
sources: copies up to `limit` payload bytes into the writer and lowers `N` by the number of
bytes copied.  The writer fails when it is offered more bytes than it takes; otherwise the
copy stops early at a failure of the socket.  The result is the error, the bytes delivered,
the new `N` and the stream left. -/
def writeTo (sink : Option (Nat × Err)) (limit : Nat) (inp : List Tok) :
    Option Err × List Nat × Nat × List Tok :=
  let r := readBytes limit inp
  match sink with
  | some (k, e) =>
    if k < r.1.length then (some e, r.1.take k, limit - k, inp.drop k)
    else (r.2.2, r.1, limit - r.1.length, r.2.1)
  | none => (r.2.2, r.1, limit - r.1.length, r.2.1)

/-- `conn.dial`: the task and the error returned; `none` is the nil dereference of
`c.service`. -/
def dial (d : DialAns) (s : State) : Option ((Option HttpTask × Option Err) × State) := do
  let service ← s.service
  let s := s.log (Act.dial service.host)
  match d.netDial with
  | .error e => pure ((none, some e), s)
  | .ok conn =>
    let task : HttpTask := ⟨conn⟩
    if service.useLocalAsHTTPHost then
      pure ((some task, d.setHost), s.log (Act.setHost conn service.host))
    else pure ((some task, none), s)

/-- The loop `for i := 0; i < 3; i++ { task, writeErr = c.dial(); if writeErr == nil { break } }`
of `processData`, with `left` iterations to go from index `i`. -/
def dialLoop (a : Ans) : Nat → Nat → Option HttpTask × Option Err → State →
    Option ((Option HttpTask × Option Err) × State)
  | 0, _, r, s => some (r, s)
  | left + 1, i, _, s => do
    let (r, s) ← dial (a.dial i) s
    if r.2 = none then pure (r, s) else dialLoop a left (i + 1) r s

/-- The result of `processData`: `readErr`, `writeErr`, the `N` left in the limited reader
and the state. -/
structure Processed where
  readErr : Option Err
  writeErr : Option Err
  n : Nat
  s : State
deriving Repr, DecidableEq

/-- `conn.processP2P`; `none` is the nil dereference of `t`. -/
def processP2P (a : Ans) (id n : Nat) (t : Option PeerTask) (ok : Bool) (s : State) :
    Option (Nat × State) := do
  let (t, s) ←
    if !ok then
      let t : PeerTask := ⟨id⟩
      let s := { s with peers := insert id (some t) s.peers }
      some (t, s.log (Act.acceptCh id))
    else t.map (fun t => (t, s))
  let w := writeTo a.sink n s.inp
  pure (w.2.2.1, { s with inp := w.2.2.2, trace := s.trace ++ [Act.pipeWrite t.id w.2.1] })

/-- The `switch e := err.(type)` of `processData` on the error of the copy: the pair
`(readErr, writeErr)` it leaves. -/
def classify (err : Option Err) : Option Err × Option Err :=
  match err with
  | none => (none, none)
  | some (Err.opError op t) =>
    if op = "write" then (none, some (Err.opError op t)) else (none, none)
  | some (Err.writeErr tag) => (none, some (Err.writeErr tag))
  | some e => (some e, none)

/-- The end of `processData`, from `_, err := r.WriteTo(task)` on; `n` is `r.N`.  `none` is
the nil dereference of `c.service`. -/
def copyPayload (a : Ans) (n : Nat) (task : HttpTask) (s : State) : Option Processed := do
  let w := writeTo a.sink n s.inp
  let s := { s with inp := w.2.2.2, trace := s.trace ++ [Act.writeTo task.conn w.2.1] }
  let (readErr, writeErr) := classify w.1
  let service ← s.service
  if service.localTimeout > 0 then
    let s := s.log (Act.taskSetReadDeadline task.conn service.localTimeout)
    pure ⟨readErr, a.backendDeadline, w.2.2.1, s⟩
  else pure ⟨readErr, writeErr, w.2.2.1, s⟩

/-- `conn.processData`; `n` is `r.N`.  `none` is a nil dereference. -/
def processData (a : Ans) (taskID n : Nat) (s : State) : Option Processed :=
  match lookup taskID s.tasks with
  | some task => copyPayload a n task s
  | none =>
    match limitedPeek 2 n s.inp with
    | (.error e, inp) => some ⟨some e, none, n, { s with inp := inp }⟩
    | (.ok peekBytes, _) =>
      -- first 2 bytes of p2p sdp request is "XP"(0x5850)
      let isP2P : Bool := be16 peekBytes = 0x5850
      let pt : Option PeerTask := (lookup taskID s.peers).join
      let ok : Bool := (lookup taskID s.peers).isSome
      if pt ≠ none ∨ (isP2P ∧ ¬ ok) then
        if s.stuns.length < 1 then
          some ⟨none, none, n, s.log (Act.respAndClose taskID
            ["HTTP/1.1 403 Forbidden\r\nConnection: Closed\r\n\r\n"])⟩
        else do
          let (n, s) ← processP2P a taskID n pt ok s
          pure ⟨none, none, n, s⟩
      else do
        let ((task, writeErr), s) ← dialLoop a 3 0 (none, none) s
        if writeErr ≠ none then pure ⟨none, writeErr, n, s⟩
        else
          let task ← task
          let service ← s.service
          let s := { s with tasks := insert taskID task s.tasks }
          let s := s.log (Act.spawn taskID task.conn service.localTimeout)
          copyPayload a n task s

/-- The `return` statements of `readLoop` and the end of its `for` loop. -/
inductive Exit where
  /-- The loop condition `pings <= 3` is false. -/
  | pingBudget
  /-- `SetReadDeadline`, `Peek` or `Discard` on the tunnel reader failed. -/
  | io
  /-- A Ping arrived while draining, with `lastPing >= 3` and no task. -/
  | drained
  /-- A Close signal arrived while draining. -/
  | closeTwice
  /-- An Error signal arrived. -/
  | errorSignal
  /-- `ReadInfo` failed. -/
  | info
  /-- "invalid service index". -/
  | invalidServiceIndex
  /-- `processData` returned a read error. -/
  | readErr
deriving Repr, DecidableEq

/-- The outcome of one iteration of the read loop. -/
inductive Res where
  /-- The iteration ends (`continue`, or the end of the body). -/
  | cont (s : State)
  /-- `readLoop` leaves its loop. -/
  | done (s : State) (why : Exit)
  /-- A run-time panic. -/
  | panic
deriving Repr, DecidableEq

/-- The `timeout` computed by `readLoop` before its loop. -/
def readTimeout (remoteTimeout : Int) : Int :=
  if remoteTimeout > 0 then
    if remoteTimeout / 2 ≤ 0 then remoteTimeout else remoteTimeout / 2
  else 0

/-- The `case predef.Data` / `case predef.ServicesData` branch of `readLoop`. -/
def dataFrame (P : Consts) (cl : Client) (a : Ans) (taskID taskOption : Nat) (s : State) :
    Res :=
  let idx : Except State (Nat × State) :=
    if taskOption ≠ P.data then
      match peek 2 s.inp with
      | (.error e, inp) => .error { s with err := some e, inp := inp }
      | (.ok peekBytes, _) =>
        match discard 2 s.inp with
        | (some e, inp) => .error { s with err := some e, inp := inp }
        | (none, inp) => .ok (be16 peekBytes, { s with err := none, inp := inp })
    else .ok (0, s)
  match idx with
  | .error s => Res.done s Exit.io
  | .ok (serviceIndex, s) =>
    if serviceIndex ≥ cl.services.length % 65536 then Res.done s Exit.invalidServiceIndex
    else
      match cl.services.get? serviceIndex with
      | none => Res.panic
      | some service =>
        let s := { s with service := some service }
        match peek 4 s.inp with
        | (.error e, inp) => Res.done { s with err := some e, inp := inp } Exit.io
        | (.ok peekBytes, _) =>
          let l := be32 peekBytes
          match discard 4 s.inp with
          | (some e, inp) => Res.done { s with err := some e, inp := inp } Exit.io
          | (none, inp) =>
            let s := { s with err := none, inp := inp }
            match processData a taskID l s with
            | none => Res.panic
            | some r =>
              if r.readErr ≠ none then Res.done { r.s with err := r.writeErr } Exit.readErr
              else if r.n > 0 then
                match discard r.n r.s.inp with
                | (some e, inp) => Res.done { r.s with err := some e, inp := inp } Exit.io
                | (none, inp) => Res.cont { r.s with err := none, inp := inp }
              else Res.cont r.s

/-- One iteration of the `for pings <= 3` loop of `readLoop`, the loop condition being
already checked. -/
def iter (P : Consts) (cl : Client) (a : Ans) (s : State) : Res :=
  let timeout := readTimeout cl.remoteTimeout
  let armed : Except State State :=
    if timeout > 0 then
      let s := { s.log (Act.setReadDeadline timeout) with err := a.setReadDeadline }
      if a.setReadDeadline ≠ none then .error s else .ok s
    else .ok s
  match armed with
  | .error s => Res.done s Exit.io
  | .ok s =>
    match peek 4 s.inp with
    | (.error e, inp) =>
      let r := isTimeout a e { s with err := some e, inp := inp }
      if r.1 then Res.cont { r.2 with pings := r.2.pings + 1, err := none }
      else Res.done r.2 Exit.io
    | (.ok peekBytes, _) =>
      let signal := be32 peekBytes
      match discard 4 s.inp with
      | (some e, inp) => Res.done { s with err := some e, inp := inp } Exit.io
      | (none, inp) =>
        let s := { s with err := none, inp := inp }
        if signal = P.pingSignal then
          let s := { s with pings := s.pings - 1, lastPing := s.lastPing + 1 }
          if s.isClosing ∧ s.lastPing ≥ 3 ∧ tasksLen s = 0 then Res.done s Exit.drained
          else if s.lastPing ≥ 6 then
            let s := { s with lastPing := 0 }
            let s := s.log Act.changeToWait
            if a.changeToWait then Res.cont (s.log Act.sendClose) else Res.cont s
          else Res.cont s
        else if signal = P.closeSignal then
          if s.isClosing then Res.done s Exit.closeTwice
          else Res.cont { s with isClosing := true }
        else if signal = P.readySignal then Res.cont (s.log Act.addTunnel)
        else if signal = P.errorSignal then
          match peek 2 s.inp with
          | (.error e, inp) => Res.done { s with err := some e, inp := inp } Exit.io
          | (.ok _, _) => Res.done s Exit.errorSignal
        else if signal = P.infoSignal then
          match peek 2 s.inp with
          | (.error e, inp) => Res.done { s with err := some e, inp := inp } Exit.io
          | (.ok peekBytes, _) =>
            let infoCode := be16 peekBytes
            match discard 2 s.inp with
            | (some e, inp) => Res.done { s with err := some e, inp := inp } Exit.io
            | (none, inp) =>
              let s := { s with err := none, inp := inp }
              let s := s.log (Act.readInfo infoCode)
              match a.readInfo with
              | .error _ => Res.done s Exit.info
              | .ok k => Res.cont { s with inp := s.inp.drop k }
        else
          let s := { s with lastPing := 0 }
          let taskID := signal
          match peek 2 s.inp with
          | (.error e, inp) => Res.done { s with err := some e, inp := inp } Exit.io
          | (.ok peekBytes, _) =>
            let taskOption := be16 peekBytes
            match discard 2 s.inp with
            | (some e, inp) => Res.done { s with err := some e, inp := inp } Exit.io
            | (none, inp) =>
              let s := { s with err := none, inp := inp }
              if taskOption = P.data ∨ taskOption = P.servicesData then
                dataFrame P cl a taskID taskOption s
              else if taskOption = P.close then
                match lookup taskID s.tasks with
                | some t => Res.cont (s.log (Act.closeByRemote t.conn))
                | none => Res.cont s
              else Res.cont s

/-- The `for pings <= 3` loop of `readLoop`, run against the answers given, one per
iteration: `Res.cont` is a loop that is still running when the answers are used up. -/
def loop (P : Consts) (cl : Client) : List Ans → State → Res
  | [], s => if s.pings ≤ 3 then Res.cont s else Res.done s Exit.pingBudget
  | a :: rest, s =>
    if s.pings ≤ 3 then
      match iter P cl a s with
      | Res.cont s => loop P cl rest s
      | r => r
    else Res.done s Exit.pingBudget

/-- The deferred function of `readLoop`. -/
def cleanup (s : State) : State :=
  (((close (s.log Act.removeTunnel)).log Act.onTunnelClose).log Act.putReader)

/-- `conn.readLoop` against the answers given: the state left when it returns, `none` while
it has not returned (the answers are used up, or it panicked). -/
def readLoop (P : Consts) (cl : Client) (answers : List Ans) (s : State) : Option State :=
  match loop P cl answers s with
  | Res.done s _ => some (cleanup s)
  | _ => none

/-- The state after a read-deadline expiry whose Ping was sent: the deadline `timeout` was
set, the Ping sent, `pings` counted up and `err` cleared; `rest` is the stream left. -/
def expired (timeout : Int) (rest : List Tok) (s : State) : State :=
  { s with
    err := none
    pings := s.pings + 1
    inp := rest
    trace := s.trace ++ [Act.setReadDeadline timeout, Act.sendPing] }

/-- The task `c.dial()` returns for the answer `d`. -/
def dialTask (d : DialAns) : Option HttpTask :=
  match d.netDial with
  | .error _ => none
  | .ok conn => some ⟨conn⟩

/-- The error `c.dial()` returns for the answer `d` when the current service is `svc`. -/
def dialErr (d : DialAns) (svc : Service) : Option Err :=
  match d.netDial with
  | .error e => some e
  | .ok _ => if svc.useLocalAsHTTPHost then d.setHost else none

/-- The collaborator calls of one `c.dial()`. -/
def dialActs (d : DialAns) (svc : Service) : List Act :=
  match d.netDial with
  | .error _ => [Act.dial svc.host]
  | .ok conn =>
    if svc.useLocalAsHTTPHost then [Act.dial svc.host, Act.setHost conn svc.host]
    else [Act.dial svc.host]

/-- The number of `net.Dial` calls in a trace. -/
def dialCount (t : List Act) : Nat :=
  t.countP (fun x => match x with | Act.dial _ => true | _ => false)

/-- The intervals of the calls of `c.Conn.SetReadDeadline` in a trace, in order. -/
def deadlines (t : List Act) : List Int :=
  t.filterMap (fun x => match x with | Act.setReadDeadline d => some d | _ => none)

/-- The state an outcome carries, when there is one. -/
def Res.state (r : Res) : Option State :=
  match r with
  | Res.cont s => some s
  | Res.done s _ => some s
  | Res.panic => none

/-- Modelled from the spec: `remove(id)` of the registry, which an HTTP task calls on its own
termination; the exit path of the task (`httpTask.process`) is not part of the sources.  The
binding of `id` is deleted, every other binding stays. -/
def remove (id : Nat) (s : State) : State :=
  { s with tasks := s.tasks.filter (fun p => p.1 != id) }

/-- The tasks `ids` leave, one after the other, each through its own `remove`. -/
def exits (ids : List Nat) (s : State) : State :=
  ids.foldl (fun s id => remove id s) s

/-! ## Lemmas on the slice primitives -/

theorem store_at (out rest : List Nat) (i v : Nat) (hi : i = out.length)
    (h : 0 < rest.length) :
    store (out ++ rest) i v = some ((out ++ [v]) ++ rest.drop 1) := by
  subst hi
  cases rest with
  | nil => simp at h
  | cons x r => simp [store]

theorem copyAt_at (out rest src : List Nat) (i : Nat) (hi : i = out.length)
    (h : src.length ≤ rest.length) :
    copyAt (out ++ rest) i src = some ((out ++ src) ++ rest.drop src.length, src.length) := by
  subst hi
  simp [copyAt, Nat.min_eq_right h, List.take_of_length_le (le_refl _), List.drop_append]

theorem initService_at (P : Consts) (id : List Nat) (n i : Nat) (s : Service)
    (out rest : List Nat) (idx : Nat) (hidx : idx = out.length)
    (hrand : s.scheme = "tcp" → s.remoteTCPRandom ≠ none)
    (hlen : (serviceChunk P id n i s).length ≤ rest.length) :
    initService P id n i s (out ++ rest) idx =
      some ((out ++ serviceChunk P id n i s) ++ rest.drop (serviceChunk P id n i s).length,
        idx + (serviceChunk P id n i s).length) := by
  subst hidx
  unfold serviceChunk announcement at *
  unfold initService
  by_cases ht : s.scheme = "tcp"
  · obtain ⟨b, hb⟩ := Option.ne_none_iff_exists'.mp (hrand ht)
    by_cases hi : (i : Int) ≠ (n : Int) - 1
    all_goals
      simp only [hi, ht, if_true, if_false, ne_eq, not_false_eq_true, not_true_eq_false,
        List.length_append, List.length_cons, List.length_nil, List.nil_append] at hlen ⊢
      try rw [copyAt_at _ _ _ _ rfl (by first | omega | (simp only [List.length_append, List.length_cons, List.length_nil, List.length_drop] <;> omega))]
      simp only [Option.bind_eq_bind, Option.some_bind, Option.pure_def, hb]
      rw [copyAt_at _ _ _ _ (by first | omega | (simp only [List.length_append, List.length_cons, List.length_nil, List.length_drop] <;> omega)) (by first | omega | (simp only [List.length_append, List.length_cons, List.length_nil, List.length_drop] <;> omega))]
      simp only [Option.some_bind]
      cases b
      all_goals
        simp only [Bool.false_eq_true, if_false, if_true]
        rw [store_at _ _ _ _ (by first | omega | (simp only [List.length_append, List.length_cons, List.length_nil, List.length_drop] <;> omega)) (by first | omega | (simp only [List.length_append, List.length_cons, List.length_nil, List.length_drop] <;> omega))]
        simp only [Option.some_bind]
        rw [store_at _ _ _ _ (by first | omega | (simp only [List.length_append, List.length_cons, List.length_nil, List.length_drop] <;> omega)) (by first | omega | (simp only [List.length_append, List.length_cons, List.length_nil, List.length_drop] <;> omega))]
        simp only [Option.some_bind]
        rw [store_at _ _ _ _ (by first | omega | (simp only [List.length_append, List.length_cons, List.length_nil, List.length_drop] <;> omega)) (by first | omega | (simp only [List.length_append, List.length_cons, List.length_nil, List.length_drop] <;> omega))]
        simp [Nat.add_assoc]
  · by_cases hp : s.hostPrefix = id
    · by_cases hi : (i : Int) ≠ (n : Int) - 1
      all_goals
        simp only [hi, ht, hp, if_true, if_false, ne_eq, not_false_eq_true, not_true_eq_false,
          List.length_append, List.length_cons, List.length_nil, List.nil_append] at hlen ⊢
        try rw [copyAt_at _ _ _ _ rfl (by first | omega | (simp only [List.length_append, List.length_cons, List.length_nil, List.length_drop] <;> omega))]
        simp only [Option.bind_eq_bind, Option.some_bind, Option.pure_def]
        rw [copyAt_at _ _ _ _ (by first | omega | (simp only [List.length_append, List.length_cons, List.length_nil, List.length_drop] <;> omega)) (by first | omega | (simp only [List.length_append, List.length_cons, List.length_nil, List.length_drop] <;> omega))]
        simp [Nat.add_assoc]
    · by_cases hi : (i : Int) ≠ (n : Int) - 1
      all_goals
        simp only [hi, ht, hp, if_true, if_false, ne_eq, not_false_eq_true, not_true_eq_false,
          List.length_append, List.length_cons, List.length_nil, List.nil_append] at hlen ⊢
        try rw [copyAt_at _ _ _ _ rfl (by first | omega | (simp only [List.length_append, List.length_cons, List.length_nil, List.length_drop] <;> omega))]
        simp only [Option.bind_eq_bind, Option.some_bind, Option.pure_def]
        rw [copyAt_at _ _ _ _ (by first | omega | (simp only [List.length_append, List.length_cons, List.length_nil, List.length_drop] <;> omega)) (by first | omega | (simp only [List.length_append, List.length_cons, List.length_nil, List.length_drop] <;> omega))]
        simp only [Option.some_bind]
        rw [store_at _ _ _ _ (by first | omega | (simp only [List.length_append, List.length_cons, List.length_nil, List.length_drop] <;> omega)) (by first | omega | (simp only [List.length_append, List.length_cons, List.length_nil, List.length_drop] <;> omega))]
        simp only [Option.some_bind]
        rw [copyAt_at _ _ _ _ (by first | omega | (simp only [List.length_append, List.length_cons, List.length_nil, List.length_drop] <;> omega)) (by first | omega | (simp only [List.length_append, List.length_cons, List.length_nil, List.length_drop] <;> omega))]
        simp [Nat.add_assoc, Nat.add_comm 1]

theorem servicesBytes_cons (P : Consts) (id : List Nat) (n i : Nat) (s : Service)
    (t : List Service) (h : i + (t.length + 1) = n) :
    servicesBytes P id (s :: t) = serviceChunk P id n i s ++ servicesBytes P id t := by
  cases t with
  | nil =>
    have : ¬ ((i : Int) ≠ (n : Int) - 1) := by simp at h; omega
    simp [servicesBytes, serviceChunk, this]
  | cons u r =>
    have : (i : Int) ≠ (n : Int) - 1 := by simp at h; omega
    simp [servicesBytes, serviceChunk, this]

theorem initServices_at (P : Consts) (id : List Nat) (n : Nat) :
    ∀ (svcs : List Service) (i : Nat) (out rest : List Nat) (idx : Nat),
      idx = out.length → i + svcs.length = n → RandomSet svcs →
      (servicesBytes P id svcs).length ≤ rest.length →
      initServices P id n svcs i (out ++ rest) idx =
        some ((out ++ servicesBytes P id svcs) ++ rest.drop (servicesBytes P id svcs).length,
          idx + (servicesBytes P id svcs).length)
  | [], i, out, rest, idx, hidx, _, _, _ => by
    simp [initServices, servicesBytes]
  | s :: t, i, out, rest, idx, hidx, hn, hr, hlen => by
    have hcons := servicesBytes_cons P id n i s t (by simpa using hn)
    rw [hcons, List.length_append] at hlen
    have hs : s.scheme = "tcp" → s.remoteTCPRandom ≠ none := hr s (by simp)
    have ht : RandomSet t := fun x hx => hr x (List.mem_cons_of_mem _ hx)
    unfold initServices
    rw [initService_at P id n i s out rest idx hidx hs (by omega)]
    simp only [Option.bind_eq_bind, Option.some_bind]
    rw [initServices_at P id n t (i + 1) _ _ _ (by simp [hidx]) (by simp at hn; omega) ht
      (by simp only [List.length_drop]; omega)]
    rw [hcons]
    simp [Nat.add_assoc]

theorem take_written (out rest : List Nat) (idx : Nat) (h : idx = out.length) :
    (if idx ≤ (out ++ rest).length then some ((out ++ rest).take idx) else none) = some out := by
  subst h
  simp

/-- With tcp services carrying their flag and a buffer that holds the whole message,
`init` hands exactly `handshakeBytes` to the socket. -/
theorem init_eq (P : Consts) (c : Client) (buf : List Nat) (hr : RandomSet c.services)
    (hlen : (handshakeBytes P c).length ≤ buf.length) :
    init P c buf = some (handshakeBytes P c) := by
  unfold handshakeBytes headerBytes at *
  simp only [List.length_append, List.length_cons, List.length_nil] at hlen
  unfold init
  dsimp only
  have h0 := store_at [] buf 0 P.magicNumber rfl (by omega)
  simp only [List.nil_append] at h0
  rw [h0]
  simp only [Option.bind_eq_bind, Option.some_bind]
  rw [store_at _ _ _ _ (by simp <;> omega) (by simp <;> omega)]
  simp only [Option.some_bind]
  rw [store_at _ _ _ _ (by simp <;> omega) (by simp <;> omega)]
  simp only [Option.some_bind]
  rw [copyAt_at _ _ _ _ (by simp <;> omega) (by simp <;> omega)]
  simp only [Option.some_bind]
  rw [store_at _ _ _ _ (by simp <;> omega) (by simp <;> omega)]
  simp only [Option.some_bind]
  rw [copyAt_at _ _ _ _ (by simp <;> omega) (by simp <;> omega)]
  simp only [Option.some_bind]
  rw [initServices_at P c.id c.services.length c.services 0 _ _ _ (by simp <;> omega) (by simp) hr
    (by simp <;> omega)]
  simp only [Option.some_bind]
  rw [take_written _ _ _ (by simp <;> omega)]
  simp

theorem servicesBytes_split (P : Consts) (id : List Nat) (s : Service) (post : List Service) :
    ∀ pre : List Service,
      servicesBytes P id (pre ++ s :: post) =
        (pre.map (fun x => P.optionAndNextOption ++ announcement P id x)).flatten ++
          ((if post = [] then [] else P.optionAndNextOption) ++ announcement P id s ++
            servicesBytes P id post)
  | [] => by
    cases post <;> simp [servicesBytes]
  | [x] => by
    have := servicesBytes_split P id s post []
    simp only [List.nil_append, List.map_nil, List.flatten_nil] at this
    simp [servicesBytes, this]
  | x :: y :: r => by
    have := servicesBytes_split P id s post (y :: r)
    simp only [List.cons_append] at this
    simp [servicesBytes, this]

theorem servicesBytes_dropLast (P : Consts) (id : List Nat) (services : List Service)
    (h : services ≠ []) :
    servicesBytes P id services =
      ((services.dropLast).map (fun x => P.optionAndNextOption ++ announcement P id x)).flatten ++
        announcement P id (services.getLast h) := by
  have hs := servicesBytes_split P id (services.getLast h) [] services.dropLast
  simp only [List.dropLast_append_getLast] at hs
  rw [hs]
  simp [servicesBytes]

/-! ## Handshake theorems -/

/-- C1: for an id and a secret of at most 255 bytes and a buffer that holds the whole
message, the bytes `init` writes are the magic byte, `0x01`, one byte `len(id)`, the id, one
byte `len(secret)`, the secret, and right after them the services section; with id `"abc"`,
secret `"s"` and one non-tcp service whose host prefix is `"abc"` the message is
`magic, 0x01, 0x03, 'a', 'b', 'c', 0x01, 's'` followed by the `IDAsHostPrefix` marker. -/
theorem init_header (P : Consts) (c : Client) (buf : List Nat)
    (hid : c.id.length ≤ 255) (hsecret : c.secret.length ≤ 255)
    (hr : RandomSet c.services) (hbuf : (handshakeBytes P c).length ≤ buf.length) :
    init P c buf =
        some ([P.magicNumber, 0x01] ++ [c.id.length] ++ c.id ++ [c.secret.length] ++ c.secret ++
          servicesBytes P c.id c.services) ∧
      ∀ (svc : Service) (remoteTimeout : Int) (b : List Nat),
        svc.scheme ≠ "tcp" → svc.hostPrefix = [97, 98, 99] →
        8 + P.idAsHostPrefix.length ≤ b.length →
        init P ⟨[97, 98, 99], [115], remoteTimeout, [svc]⟩ b =
          some ([P.magicNumber, 0x01, 0x03, 97, 98, 99, 0x01, 115] ++ P.idAsHostPrefix) := by
  constructor
  · rw [init_eq P c buf hr hbuf]
    simp [handshakeBytes, headerBytes, Nat.mod_eq_of_lt (Nat.lt_succ_of_le hid),
      Nat.mod_eq_of_lt (Nat.lt_succ_of_le hsecret)]
  · intro svc rt b hs hp hb
    have hr1 : RandomSet [svc] := by
      intro x hx ht
      simp only [List.mem_singleton] at hx
      subst hx
      exact absurd ht hs
    rw [init_eq P _ b hr1 (by
      simp only [handshakeBytes, headerBytes, servicesBytes, announcement, hs, hp, if_true,
        if_false, List.length_append, List.length_cons, List.length_nil]
      omega)]
    simp [handshakeBytes, headerBytes, servicesBytes, announcement, hs, hp]

/-- The instance of C1 at id `"abc"`, secret `"s"`, one http service with host prefix `"abc"`
and a 16-byte buffer. -/
theorem init_header_witness :
    init demoConsts
        ⟨[97, 98, 99], [115], 0, [⟨"http", "127.0.0.1:80", none, 0, [97, 98, 99], false, 0⟩]⟩
        (List.replicate 16 0) =
      some [0xF0, 0x01, 0x03, 97, 98, 99, 0x01, 115, 0x00, 0x01] :=
  (init_header demoConsts
    ⟨[97, 98, 99], [115], 0, [⟨"http", "127.0.0.1:80", none, 0, [97, 98, 99], false, 0⟩]⟩
    (List.replicate 16 0) (by decide) (by decide) (by decide) (by decide)).1.trans (by decide)

/-- C2, as stated, fails: with id `"x"`, an empty secret and the two services
(tcp, port 8080) and (http, host prefix `"x"`), `init` writes the `OptionAndNextOption`
marker before the first announcement, not between the two announcements. -/
theorem init_separator_counterexample :
    init demoConsts
        ⟨[120], [], 0, [⟨"tcp", "127.0.0.1:22", some false, 8080, [], false, 0⟩,
          ⟨"http", "127.0.0.1:80", none, 0, [120], false, 0⟩]⟩ (List.replicate 32 0) =
      some ([0xF0, 0x01, 0x01, 120, 0x00] ++ [0xFF, 0xFF] ++ [0x00, 0x03, 0x00, 0x1F, 0x90] ++
        [0x00, 0x01]) ∧
    servicesBytesSpec demoConsts [120]
        [⟨"tcp", "127.0.0.1:22", some false, 8080, [], false, 0⟩,
          ⟨"http", "127.0.0.1:80", none, 0, [120], false, 0⟩] =
      [0x00, 0x03, 0x00, 0x1F, 0x90] ++ [0xFF, 0xFF] ++ [0x00, 0x01] ∧
    init demoConsts
        ⟨[120], [], 0, [⟨"tcp", "127.0.0.1:22", some false, 8080, [], false, 0⟩,
          ⟨"http", "127.0.0.1:80", none, 0, [120], false, 0⟩]⟩ (List.replicate 32 0) ≠
      some ([0xF0, 0x01, 0x01, 120, 0x00] ++
        servicesBytesSpec demoConsts [120]
          [⟨"tcp", "127.0.0.1:22", some false, 8080, [], false, 0⟩,
            ⟨"http", "127.0.0.1:80", none, 0, [120], false, 0⟩]) := by
  refine ⟨by decide, by decide, by decide⟩

/-- C2, amended: for a non-empty list of `k` services the services section written by `init`
is marker, announcement_0, marker, announcement_1, ..., marker, announcement_{k-2},
announcement_{k-1}: the `k` announcements in the given order, the `OptionAndNextOption`
marker written `k-1` times, each time right before one of the first `k-1` announcements, and
nothing after the last announcement. -/
theorem init_separator (P : Consts) (c : Client) (buf : List Nat) (hne : c.services ≠ [])
    (hr : RandomSet c.services) (hbuf : (handshakeBytes P c).length ≤ buf.length) :
    init P c buf =
        some (headerBytes P c ++
          ((c.services.dropLast.map
              (fun s => P.optionAndNextOption ++ announcement P c.id s)).flatten ++
            announcement P c.id (c.services.getLast hne))) ∧
      c.services.dropLast.length = c.services.length - 1 ∧
      c.services.dropLast ++ [c.services.getLast hne] = c.services := by
  refine ⟨?_, by simp, List.dropLast_append_getLast hne⟩
  rw [init_eq P c buf hr hbuf, handshakeBytes, servicesBytes_dropLast P c.id c.services hne]

/-- The instance of amended C2 at two services. -/
theorem init_separator_witness :
    init demoConsts
        ⟨[120], [], 0, [⟨"tcp", "127.0.0.1:22", some false, 8080, [], false, 0⟩,
          ⟨"http", "127.0.0.1:80", none, 0, [120], false, 0⟩]⟩ (List.replicate 32 0) =
      some ([0xF0, 0x01, 0x01, 120, 0x00] ++
        ([0xFF, 0xFF] ++ [0x00, 0x03, 0x00, 0x1F, 0x90] ++ [0x00, 0x01])) := by
  have h := (init_separator demoConsts
    ⟨[120], [], 0, [⟨"tcp", "127.0.0.1:22", some false, 8080, [], false, 0⟩,
      ⟨"http", "127.0.0.1:80", none, 0, [120], false, 0⟩]⟩ (List.replicate 32 0)
    (by decide) (by decide) (by decide)).1
  rw [h]
  decide

/-- C3: whatever the position of a service in the list, `init` writes for it: when the
scheme is `"tcp"`, the `OpenTCPPort` marker, one byte that is 1 when `RemoteTCPRandom` is
true and 0 otherwise, then the port high byte first; otherwise, when the host prefix equals
the client id, the `IDAsHostPrefix` marker alone; otherwise the `OpenHost` marker, the byte
`len(host_prefix)` and the host prefix.  With id `"x"`, an empty secret and one tcp service
(random false, port 8080) the message is
`magic, 0x01, 0x01, 'x', 0x00, OpenTCPPort, 0x00, 0x1F, 0x90`. -/
theorem init_announcement (P : Consts) (c : Client) (buf : List Nat)
    (pre post : List Service) (s : Service) (hs : c.services = pre ++ s :: post)
    (hport : s.remoteTCPPort < 65536)
    (hr : RandomSet c.services) (hbuf : (handshakeBytes P c).length ≤ buf.length) :
    init P c buf =
        some (headerBytes P c ++
          ((pre.map (fun x => P.optionAndNextOption ++ announcement P c.id x)).flatten ++
            ((if post = [] then [] else P.optionAndNextOption) ++
              (if s.scheme = "tcp" then
                P.openTCPPort ++ [if s.remoteTCPRandom = some true then 1 else 0] ++
                  [s.remoteTCPPort / 256, s.remoteTCPPort % 256]
              else if s.hostPrefix = c.id then P.idAsHostPrefix
              else P.openHost ++ [s.hostPrefix.length % 256] ++ s.hostPrefix) ++
              servicesBytes P c.id post))) ∧
      (s.hostPrefix.length ≤ 255 → s.hostPrefix.length % 256 = s.hostPrefix.length) ∧
      ∀ (svc : Service) (remoteTimeout : Int) (b : List Nat),
        svc.scheme = "tcp" → svc.remoteTCPRandom = some false → svc.remoteTCPPort = 8080 →
        8 + P.openTCPPort.length ≤ b.length →
        init P ⟨[120], [], remoteTimeout, [svc]⟩ b =
          some ([P.magicNumber, 0x01, 0x01, 120, 0x00] ++ P.openTCPPort ++
            [0x00, 0x1F, 0x90]) := by
  refine ⟨?_, fun h => Nat.mod_eq_of_lt (by omega), ?_⟩
  · rw [init_eq P c buf hr hbuf, handshakeBytes, hs, servicesBytes_split]
    have hhi : s.remoteTCPPort / 256 % 256 = s.remoteTCPPort / 256 :=
      Nat.mod_eq_of_lt (by omega)
    by_cases ht : s.scheme = "tcp"
    · simp [announcement, ht, hhi]
    · by_cases hp : s.hostPrefix = c.id <;> simp [announcement, ht, hp]
  · intro svc rt b ht hrnd hp hb
    have hr1 : RandomSet [svc] := by
      intro x hx _
      simp only [List.mem_singleton] at hx
      subst hx
      simp [hrnd]
    rw [init_eq P _ b hr1 (by
      simp only [handshakeBytes, headerBytes, servicesBytes, announcement, ht, if_true,
        List.length_append, List.length_cons, List.length_nil]
      omega)]
    simp [handshakeBytes, headerBytes, servicesBytes, announcement, ht, hrnd, hp]

/-- The instance of C3 at three services (tcp, open host, id as host prefix), read at the
middle one. -/
theorem init_announcement_witness :
    init demoConsts
        ⟨[120], [], 0, [⟨"tcp", "127.0.0.1:22", some true, 8080, [], false, 0⟩,
          ⟨"http", "127.0.0.1:80", none, 0, [97, 98], false, 0⟩,
          ⟨"http", "127.0.0.1:81", none, 0, [120], false, 0⟩]⟩ (List.replicate 32 0) =
      some ([0xF0, 0x01, 0x01, 120, 0x00] ++
        ([0xFF, 0xFF, 0x00, 0x03, 0x01, 0x1F, 0x90] ++
          ([0xFF, 0xFF] ++ ([0x00, 0x02] ++ [2] ++ [97, 98]) ++ [0x00, 0x01]))) := by
  have h := (init_announcement demoConsts
    ⟨[120], [], 0, [⟨"tcp", "127.0.0.1:22", some true, 8080, [], false, 0⟩,
      ⟨"http", "127.0.0.1:80", none, 0, [97, 98], false, 0⟩,
      ⟨"http", "127.0.0.1:81", none, 0, [120], false, 0⟩]⟩ (List.replicate 32 0)
    [⟨"tcp", "127.0.0.1:22", some true, 8080, [], false, 0⟩]
    [⟨"http", "127.0.0.1:81", none, 0, [120], false, 0⟩]
    ⟨"http", "127.0.0.1:80", none, 0, [97, 98], false, 0⟩ rfl (by decide) (by decide)
    (by decide)).1
  rw [h]
  decide

/-! ## Read loop: stream lemmas -/

theorem readTimeout_pos (remoteTimeout : Int) (h : remoteTimeout > 0) :
    readTimeout remoteTimeout > 0 := by
  unfold readTimeout
  simp only [h, if_true]
  split <;> omega

theorem discard_bytes (rest : List Tok) :
    ∀ bs : List Nat, discard bs.length (bs.map Tok.byte ++ rest) = (none, rest)
  | [] => by simp [discard]
  | b :: bs => by simpa [discard] using discard_bytes rest bs

theorem loop_append (P : Consts) (cl : Client) (ys : List Ans) :
    ∀ (xs : List Ans) (s : State),
      loop P cl (xs ++ ys) s =
        match loop P cl xs s with
        | Res.cont s' => loop P cl ys s'
        | r => r
  | [], s => by
    cases ys <;> by_cases h : s.pings ≤ 3 <;> simp [loop, h]
  | a :: xs, s => by
    by_cases h : s.pings ≤ 3
    · simp only [List.cons_append, loop, h, if_true]
      cases hi : iter P cl a s with
      | cont s' => simpa using loop_append P cl ys xs s'
      | done s' w => simp
      | panic => simp
    · simp [loop, h]

/-- A loop whose counter exceeds the budget leaves at once, whatever the answers. -/
theorem loop_over_budget (P : Consts) (cl : Client) (as : List Ans) (s : State)
    (h : 3 < s.pings) : loop P cl as s = Res.done s Exit.pingBudget := by
  cases as <;> simp [loop, not_le.mpr h]

/-- One read-deadline expiry whose Ping is sent: the iteration counts it and goes on. -/
theorem iter_expiry (P : Consts) (cl : Client) (a : Ans) (s : State) (op : String)
    (rest : List Tok) (hrt : cl.remoteTimeout > 0) (hd : a.setReadDeadline = none)
    (hp : a.sendPing = none) (hinp : s.inp = Tok.fail (Err.opError op true) :: rest) :
    iter P cl a s = Res.cont (expired (readTimeout cl.remoteTimeout) rest s) := by
  have ht := readTimeout_pos _ hrt
  simp [iter, ht, hd, hp, hinp, peek, isTimeout, State.log, expired]

theorem loop_expiries (P : Consts) (cl : Client) (rest : List Tok)
    (hrt : cl.remoteTimeout > 0) :
    ∀ (ops : List String) (as : List Ans) (s : State),
      as.length = ops.length →
      (∀ a ∈ as, a.setReadDeadline = none ∧ a.sendPing = none) →
      s.inp = ops.map (fun op => Tok.fail (Err.opError op true)) ++ rest →
      (s.pings + ops.length ≤ 3 →
        ∃ s', loop P cl as s = Res.cont s' ∧ s'.pings = s.pings + ops.length ∧
          s'.inp = rest ∧ s'.isClosing = s.isClosing ∧ s'.tasks = s.tasks) ∧
      (3 < s.pings + ops.length →
        ∃ s', loop P cl as s = Res.done s' Exit.pingBudget ∧ 3 < s'.pings ∧
          s'.pings ≤ max s.pings 4)
  | [], as, s, hlen, _, hinp => by
    have has : as = [] := List.length_eq_zero.mp (by simpa using hlen)
    subst has
    constructor
    · intro h
      have h3 : s.pings ≤ 3 := by simpa using h
      exact ⟨s, by simp [loop, h3], by simp, by simpa using hinp, rfl, rfl⟩
    · intro h
      have h3 : 3 < s.pings := by simpa using h
      exact ⟨s, loop_over_budget P cl [] s h3, h3, le_max_left _ _⟩
  | op :: ops, [], s, hlen, _, _ => by simp at hlen
  | op :: ops, a :: as, s, hlen, hok, hinp => by
    have ha := hok a (by simp)
    have hrec := loop_expiries P cl rest hrt ops as
      (expired (readTimeout cl.remoteTimeout) (ops.map (fun op => Tok.fail (Err.opError op true)) ++ rest) s)
      (by simpa using hlen) (fun x hx => hok x (List.mem_cons_of_mem _ hx)) (by simp [expired])
    have hstep := iter_expiry P cl a s op _ hrt ha.1 ha.2 (by simpa using hinp)
    by_cases h3 : s.pings ≤ 3
    · have hl : loop P cl (a :: as) s = loop P cl as
          (expired (readTimeout cl.remoteTimeout)
            (ops.map (fun op => Tok.fail (Err.opError op true)) ++ rest) s) := by
        simp [loop, h3, hstep]
      rw [hl]
      simp only [expired, List.length_cons, Nat.cast_add, Nat.cast_one] at hrec ⊢
      constructor
      · intro h
        obtain ⟨s', h1, h2, h4, h5, h6⟩ := hrec.1 (by omega)
        exact ⟨s', h1, by omega, h4, h5, h6⟩
      · intro h
        obtain ⟨s', h1, h2, h4⟩ := hrec.2 (by omega)
        refine ⟨s', h1, h2, ?_⟩
        have : max (s.pings + 1) 4 = 4 := max_eq_right (by omega)
        have : (4 : Int) ≤ max s.pings 4 := le_max_right _ _
        omega
    · have h3' : 3 < s.pings := not_le.mp h3
      constructor
      · intro h
        simp only [List.length_cons, Nat.cast_add, Nat.cast_one] at h
        omega
      · intro _
        exact ⟨s, loop_over_budget P cl _ s h3', h3', le_max_left _ _⟩

/-- An inbound Ping lowers `pings` by one and raises `lastPing` by one; the iteration goes on
unless the tunnel is draining. -/
theorem iter_ping (P : Consts) (cl : Client) (a : Ans) (s : State) (b0 b1 b2 b3 : Nat)
    (rest : List Tok) (hd : a.setReadDeadline = none)
    (hsig : be32 [b0, b1, b2, b3] = P.pingSignal)
    (hinp : s.inp = Tok.byte b0 :: Tok.byte b1 :: Tok.byte b2 :: Tok.byte b3 :: rest) :
    ∃ s', (iter P cl a s = Res.cont s' ∨ iter P cl a s = Res.done s' Exit.drained) ∧
      s'.pings = s.pings - 1 ∧ s'.inp = rest ∧ s'.isClosing = s.isClosing ∧
      s'.tasks = s.tasks ∧ (s.isClosing = false → iter P cl a s = Res.cont s') := by
  by_cases ht : readTimeout cl.remoteTimeout > 0
  all_goals
    simp only [iter, ht, hd, hinp, peek, discard, hsig, State.log, if_true, if_false,
      ne_eq, not_true_eq_false]
    split_ifs <;> simp_all

/-! ## Keepalive accounting -/

/-- C4: from a state with `pings = 0` and `remote_timeout > 0`, after `N` consecutive
read-deadline expiries, each followed by a Ping sent with success, the loop has left through
its condition `pings <= 3` if and only if `N > 3`: up to the third expiry it is running with
`pings = N`, from the fourth on it has left with `pings = 4`.  When the server answers one
expiry with a Ping, `pings` is 1 and then 0, and the loop is running. -/
theorem keepalive_budget (P : Consts) (cl : Client) (s : State) (ops : List String)
    (as : List Ans) (rest : List Tok) (hrt : cl.remoteTimeout > 0) (hp : s.pings = 0)
    (hlen : as.length = ops.length)
    (hok : ∀ a ∈ as, a.setReadDeadline = none ∧ a.sendPing = none)
    (hinp : s.inp = ops.map (fun op => Tok.fail (Err.opError op true)) ++ rest) :
    ((∃ s', loop P cl as s = Res.done s' Exit.pingBudget) ↔ 3 < ops.length) ∧
      (ops.length ≤ 3 →
        ∃ s', loop P cl as s = Res.cont s' ∧ s'.pings = ops.length ∧ s'.inp = rest) ∧
      (3 < ops.length → ∃ s', loop P cl as s = Res.done s' Exit.pingBudget ∧ s'.pings = 4) ∧
      ∀ (a1 a2 : Ans) (op : String) (b0 b1 b2 b3 : Nat) (s0 : State) (tl : List Tok),
        s0.pings = 0 → s0.isClosing = false →
        a1.setReadDeadline = none → a1.sendPing = none → a2.setReadDeadline = none →
        be32 [b0, b1, b2, b3] = P.pingSignal →
        s0.inp = Tok.fail (Err.opError op true) ::
          Tok.byte b0 :: Tok.byte b1 :: Tok.byte b2 :: Tok.byte b3 :: tl →
        ∃ s1 s2, loop P cl [a1] s0 = Res.cont s1 ∧ s1.pings = 1 ∧
          loop P cl [a1, a2] s0 = Res.cont s2 ∧ s2.pings = 0 ∧ s2.inp = tl := by
  have h := loop_expiries P cl rest hrt ops as s hlen hok hinp
  rw [hp] at h
  have hlow : ops.length ≤ 3 →
      ∃ s', loop P cl as s = Res.cont s' ∧ s'.pings = ops.length ∧ s'.inp = rest := by
    intro hN
    obtain ⟨s', h1, h2, h3, _⟩ := h.1 (by omega)
    exact ⟨s', h1, by omega, h3⟩
  have hhigh : 3 < ops.length →
      ∃ s', loop P cl as s = Res.done s' Exit.pingBudget ∧ s'.pings = 4 := by
    intro hN
    obtain ⟨s', h1, h2, h3⟩ := h.2 (by omega)
    refine ⟨s', h1, ?_⟩
    have : max (0 : Int) 4 = 4 := by decide
    omega
  refine ⟨⟨?_, fun hN => ?_⟩, hlow, hhigh, ?_⟩
  · rintro ⟨s', hs'⟩
    by_contra hN
    obtain ⟨s'', h1, _⟩ := hlow (by omega)
    rw [h1] at hs'
    cases hs'
  · obtain ⟨s', h1, _⟩ := hhigh hN
    exact ⟨s', h1⟩
  · intro a1 a2 op b0 b1 b2 b3 s0 tl hp0 hc0 hd1 hs1 hd2 hsig hin0
    obtain ⟨s1, hstep, hp1, hc1, hi1⟩ : ∃ s1, iter P cl a1 s0 = Res.cont s1 ∧ s1.pings = 1 ∧
        s1.isClosing = false ∧
        s1.inp = Tok.byte b0 :: Tok.byte b1 :: Tok.byte b2 :: Tok.byte b3 :: tl :=
      ⟨_, iter_expiry P cl a1 s0 op _ hrt hd1 hs1 hin0, by simp [expired, hp0],
        by simp [expired, hc0], by simp [expired]⟩
    obtain ⟨s2, _, hp2, hi2, _, _, hrun⟩ := iter_ping P cl a2 s1 b0 b1 b2 b3 tl hd2 hsig hi1
    have hrun2 := hrun hc1
    have h0 : s0.pings ≤ 3 := by omega
    have h1 : s1.pings ≤ 3 := by omega
    have h2 : s2.pings ≤ 3 := by omega
    refine ⟨s1, s2, ?_, hp1, ?_, by omega, hi2⟩
    · simp [loop, h0, h1, hstep]
    · simp [loop, h0, h1, h2, hstep, hrun2]

/-- The instance of C4 at four expiries: the loop has left through its condition. -/
theorem keepalive_budget_witness :
    ∃ s', loop demoConsts ⟨[120], [], 200, []⟩
        (List.replicate 4 ⟨none, none, false, .ok 0, fun _ => ⟨.ok 0, none⟩, none, none⟩)
        (State.fresh [] [] (List.replicate 4 (Tok.fail (Err.opError "read" true)))) =
      Res.done s' Exit.pingBudget :=
  (keepalive_budget demoConsts ⟨[120], [], 200, []⟩
    (State.fresh [] [] (List.replicate 4 (Tok.fail (Err.opError "read" true))))
    ["read", "read", "read", "read"]
    (List.replicate 4 ⟨none, none, false, .ok 0, fun _ => ⟨.ok 0, none⟩, none, none⟩) []
    (by decide) rfl rfl (by simp) (by simp [State.fresh])).1.mpr (by decide)

/-- C5, as stated, fails: a Ping received with no keepalive outstanding leaves `pings = -1`,
and the four read-deadline expiries that follow, each with its Ping sent, leave the loop
running with `pings = 3`. -/
theorem ping_counter_counterexample :
    ∃ s1 s2,
      loop demoConsts ⟨[120], [], 200, []⟩
          [⟨none, none, false, .ok 0, fun _ => ⟨.ok 0, none⟩, none, none⟩]
          (State.fresh [] []
            ([Tok.byte 255, Tok.byte 255, Tok.byte 255, Tok.byte 255] ++
              List.replicate 4 (Tok.fail (Err.opError "read" true)))) = Res.cont s1 ∧
        s1.pings = -1 ∧ s1.inp = List.replicate 4 (Tok.fail (Err.opError "read" true)) ∧
        loop demoConsts ⟨[120], [], 200, []⟩
          (List.replicate 4 ⟨none, none, false, .ok 0, fun _ => ⟨.ok 0, none⟩, none, none⟩)
          s1 = Res.cont s2 ∧
        s2.pings = 3 ∧ s2.inp = [] :=
  ⟨_, _, rfl, rfl, rfl, rfl, rfl, rfl⟩

/-- C5, amended: from every state of the running loop (`pings ≤ 3`), `k` consecutive
read-deadline expiries, each with its Ping sent, end the loop exactly when `pings + k > 3`;
so four of them end it from every state with `pings ≥ 0`.  Every inbound Ping lowers `pings`
by one, whatever its value, so the counter can be negative. -/
theorem ping_counter (P : Consts) (cl : Client) (s : State) (ops : List String)
    (as : List Ans) (rest : List Tok) (hrt : cl.remoteTimeout > 0) (hrun : s.pings ≤ 3)
    (hlen : as.length = ops.length)
    (hok : ∀ a ∈ as, a.setReadDeadline = none ∧ a.sendPing = none)
    (hinp : s.inp = ops.map (fun op => Tok.fail (Err.opError op true)) ++ rest) :
    ((∃ s', loop P cl as s = Res.done s' Exit.pingBudget) ↔ 3 < s.pings + ops.length) ∧
      (0 ≤ s.pings → ops.length = 4 → ∃ s', loop P cl as s = Res.done s' Exit.pingBudget) ∧
      ∀ (a : Ans) (s0 : State) (b0 b1 b2 b3 : Nat) (tl : List Tok),
        a.setReadDeadline = none → be32 [b0, b1, b2, b3] = P.pingSignal →
        s0.inp = Tok.byte b0 :: Tok.byte b1 :: Tok.byte b2 :: Tok.byte b3 :: tl →
        ∃ s', (iter P cl a s0 = Res.cont s' ∨ iter P cl a s0 = Res.done s' Exit.drained) ∧
          s'.pings = s0.pings - 1 := by
  have h := loop_expiries P cl rest hrt ops as s hlen hok hinp
  have hiff : (∃ s', loop P cl as s = Res.done s' Exit.pingBudget) ↔
      3 < s.pings + ops.length := by
    constructor
    · rintro ⟨s', hs'⟩
      by_contra hN
      obtain ⟨s'', h1, _⟩ := h.1 (by omega)
      rw [h1] at hs'
      cases hs'
    · intro hN
      obtain ⟨s', h1, _⟩ := h.2 hN
      exact ⟨s', h1⟩
  refine ⟨hiff, fun h0 h4 => hiff.mpr (by omega), ?_⟩
  intro a s0 b0 b1 b2 b3 tl hd hsig hin0
  obtain ⟨s', h1, h2, _⟩ := iter_ping P cl a s0 b0 b1 b2 b3 tl hd hsig hin0
  exact ⟨s', h1, h2⟩

/-- The instance of amended C5 at a state with one keepalive outstanding and three
expiries. -/
theorem ping_counter_witness :
    ∃ s', loop demoConsts ⟨[120], [], 200, []⟩
        (List.replicate 3 ⟨none, none, false, .ok 0, fun _ => ⟨.ok 0, none⟩, none, none⟩)
        { State.fresh [] [] (List.replicate 3 (Tok.fail (Err.opError "read" true))) with
          pings := 1 } =
      Res.done s' Exit.pingBudget :=
  (ping_counter demoConsts ⟨[120], [], 200, []⟩
    { State.fresh [] [] (List.replicate 3 (Tok.fail (Err.opError "read" true))) with
      pings := 1 }
    ["read", "read", "read"]
    (List.replicate 3 ⟨none, none, false, .ok 0, fun _ => ⟨.ok 0, none⟩, none, none⟩) []
    (by decide) (by decide) rfl (by simp) (by simp [State.fresh])).1.mpr (by decide)

/-! ## What `processData` leaves alone -/

theorem dial_locals (d : DialAns) (s : State) (r : Option HttpTask × Option Err) (s' : State)
    (h : dial d s = some (r, s')) :
    s'.isClosing = s.isClosing ∧ s'.pings = s.pings ∧ s'.lastPing = s.lastPing ∧
      s'.tasks = s.tasks ∧ s'.inp = s.inp ∧ s'.service = s.service ∧ s'.peers = s.peers := by
  unfold dial at h
  cases hs : s.service with
  | none => simp [hs] at h
  | some svc =>
    simp only [hs, Option.bind_eq_bind, Option.some_bind, Option.pure_def] at h
    split at h
    · simp only [Option.some.injEq, Prod.mk.injEq] at h
      obtain ⟨_, rfl⟩ := h
      simp [State.log, hs]
    · split at h <;>
      · simp only [Option.some.injEq, Prod.mk.injEq] at h
        obtain ⟨_, rfl⟩ := h
        simp [State.log, hs]

theorem dialLoop_locals (a : Ans) :
    ∀ (left i : Nat) (r0 : Option HttpTask × Option Err) (s : State)
      (r : Option HttpTask × Option Err) (s' : State),
      dialLoop a left i r0 s = some (r, s') →
      s'.isClosing = s.isClosing ∧ s'.pings = s.pings ∧ s'.lastPing = s.lastPing ∧
        s'.tasks = s.tasks ∧ s'.inp = s.inp ∧ s'.service = s.service ∧ s'.peers = s.peers
  | 0, _, r0, s, r, s', h => by
    simp only [dialLoop, Option.some.injEq, Prod.mk.injEq] at h
    obtain ⟨_, rfl⟩ := h
    simp
  | left + 1, i, r0, s, r, s', h => by
    simp only [dialLoop, Option.bind_eq_bind, Option.pure_def] at h
    cases hd : dial (a.dial i) s with
    | none => simp [hd] at h
    | some p =>
      obtain ⟨r1, s1⟩ := p
      have h1 := dial_locals _ _ _ _ hd
      simp only [hd, Option.some_bind] at h
      split at h
      · simp only [Option.some.injEq, Prod.mk.injEq] at h
        obtain ⟨_, rfl⟩ := h
        exact h1
      · have h2 := dialLoop_locals a left (i + 1) r1 s1 r s' h
        simp_all

theorem processP2P_locals (a : Ans) (id n : Nat) (t : Option PeerTask) (ok : Bool) (s : State)
    (m : Nat) (s' : State) (h : processP2P a id n t ok s = some (m, s')) :
    s'.isClosing = s.isClosing ∧ s'.pings = s.pings ∧ s'.lastPing = s.lastPing := by
  unfold processP2P at h
  cases ok with
  | false =>
    simp only [Bool.not_false, if_true, Option.bind_eq_bind, Option.some_bind,
      Option.pure_def, Option.some.injEq, Prod.mk.injEq, State.log] at h
    obtain ⟨_, rfl⟩ := h
    simp
  | true =>
    cases t with
    | none => simp at h
    | some t =>
      simp only [Bool.not_true, Bool.false_eq_true, if_false, Option.map_some',
        Option.bind_eq_bind, Option.some_bind, Option.pure_def, Option.some.injEq,
        Prod.mk.injEq] at h
      obtain ⟨_, rfl⟩ := h
      simp

theorem copyPayload_locals (a : Ans) (n : Nat) (task : HttpTask) (s : State) (r : Processed)
    (h : copyPayload a n task s = some r) :
    r.s.isClosing = s.isClosing ∧ r.s.pings = s.pings ∧ r.s.lastPing = s.lastPing ∧
      r.s.tasks = s.tasks ∧ r.s.peers = s.peers ∧ r.s.service = s.service := by
  unfold copyPayload at h
  cases hs : s.service with
  | none => simp [hs] at h
  | some svc =>
    simp only [hs, Option.bind_eq_bind, Option.some_bind, Option.pure_def] at h
    split at h <;>
    · simp only [Option.some.injEq] at h
      subst h
      simp [State.log, hs]

theorem processData_locals (a : Ans) (taskID n : Nat) (s : State) (r : Processed)
    (h : processData a taskID n s = some r) :
    r.s.isClosing = s.isClosing ∧ r.s.pings = s.pings ∧ r.s.lastPing = s.lastPing := by
  unfold processData at h
  simp only at h
  split at h
  · have := copyPayload_locals _ _ _ _ _ h
    exact ⟨this.1, this.2.1, this.2.2.1⟩
  · split at h
    · simp only [Option.some.injEq] at h
      subst h
      simp
    · split at h
      · split at h
        · simp only [Option.some.injEq] at h
          subst h
          simp [State.log]
        · cases hp : processP2P a taskID n (lookup taskID s.peers).join
              (lookup taskID s.peers).isSome s with
          | none => rw [hp] at h; simp at h
          | some p =>
            obtain ⟨m, s1⟩ := p
            have := processP2P_locals _ _ _ _ _ _ _ _ hp
            rw [hp] at h
            simp only [Option.bind_eq_bind, Option.some_bind, Option.pure_def,
              Option.some.injEq] at h
            subst h
            exact this
      · cases hd : dialLoop a 3 0 (none, none) s with
        | none => simp [hd] at h
        | some p =>
          obtain ⟨⟨task, werr⟩, s1⟩ := p
          have hl := dialLoop_locals a _ _ _ _ _ _ hd
          simp only [hd, Option.bind_eq_bind, Option.some_bind, Option.pure_def] at h
          split at h
          · simp only [Option.some.injEq] at h
            subst h
            simp [hl]
          · cases task with
            | none => simp at h
            | some task =>
              cases hs : s1.service with
              | none => simp [hs] at h
              | some svc =>
                simp only [hs, Option.some_bind] at h
                have := copyPayload_locals _ _ _ _ _ h
                simp only [State.log] at this
                simp [this, hl]

theorem dataFrame_locals (P : Consts) (cl : Client) (a : Ans) (taskID taskOption : Nat)
    (s s' : State) (h : dataFrame P cl a taskID taskOption s = Res.cont s') :
    s'.isClosing = s.isClosing ∧ s'.pings = s.pings ∧ s'.lastPing = s.lastPing := by
  unfold dataFrame at h
  simp only at h
  split at h
  · cases h
  · rename_i serviceIndex s1 hidx
    have h1 : s1.isClosing = s.isClosing ∧ s1.pings = s.pings ∧ s1.lastPing = s.lastPing := by
      split at hidx
      · split at hidx
        · cases hidx
        · split at hidx
          · cases hidx
          · simp only [Except.ok.injEq, Prod.mk.injEq] at hidx
            obtain ⟨_, rfl⟩ := hidx
            simp
      · simp only [Except.ok.injEq, Prod.mk.injEq] at hidx
        obtain ⟨_, rfl⟩ := hidx
        simp
    split at h
    · cases h
    · split at h
      · cases h
      · split at h
        · cases h
        · split at h
          · cases h
          · split at h
            · cases h
            · rename_i r hr
              have h2 := processData_locals _ _ _ _ _ hr
              simp only at h2
              split at h
              · cases h
              · split at h
                · split at h
                  · cases h
                  · simp only [Res.cont.injEq] at h
                    subst h
                    simp [h2, h1]
                · simp only [Res.cont.injEq] at h
                  subst h
                  simp [h2, h1]

/-- An iteration that goes on never clears the draining flag. -/
theorem iter_isClosing (P : Consts) (cl : Client) (a : Ans) (s s' : State)
    (h : iter P cl a s = Res.cont s') (hc : s.isClosing = true) : s'.isClosing = true := by
  unfold iter at h
  simp only at h
  split at h
  · cases h
  · rename_i s1 harm
    have h1 : s1.isClosing = true := by
      split at harm
      · split at harm
        · cases harm
        · simp only [Except.ok.injEq] at harm
          subst harm
          simpa [State.log] using hc
      · simp only [Except.ok.injEq] at harm
        subst harm
        exact hc
    split at h
    · split at h
      · simp only [Res.cont.injEq] at h
        subst h
        rename_i e inp _ _
        cases e with
        | opError op t =>
          cases t <;> simp only [isTimeout] <;> (try split) <;> simpa [State.log] using h1
        | writeErr tag => simpa [isTimeout] using h1
        | other tag => simpa [isTimeout] using h1
      · cases h
    · split at h
      · cases h
      · split_ifs at h
        all_goals first
          | exact Res.noConfusion h
          | (simp only [Res.cont.injEq] at h; subst h; simpa [State.log] using h1)
          | skip
        all_goals
          repeat' split at h
          all_goals first
            | exact Res.noConfusion h
            | (simp only [Res.cont.injEq] at h; subst h; simpa [State.log] using h1)
            | (have hdf : _ := (dataFrame_locals _ _ _ _ _ _ _ h).1
               simp only at hdf
               rw [hdf]
               exact h1)

theorem loop_isClosing (P : Consts) (cl : Client) :
    ∀ (as : List Ans) (s s' : State), loop P cl as s = Res.cont s' → s.isClosing = true →
      s'.isClosing = true
  | [], s, s', h, hc => by
    simp only [loop] at h
    split at h
    · simp only [Res.cont.injEq] at h
      subst h
      exact hc
    · cases h
  | a :: as, s, s', h, hc => by
    simp only [loop] at h
    split at h
    · cases hi : iter P cl a s with
      | cont s1 =>
        rw [hi] at h
        exact loop_isClosing P cl as s1 s' h (iter_isClosing P cl a s s1 hi hc)
      | done s1 w => rw [hi] at h; cases h
      | panic => rw [hi] at h; cases h
    · cases h

/-- A loop that is still running has its counter within the budget. -/
theorem loop_cont_pings (P : Consts) (cl : Client) :
    ∀ (as : List Ans) (s s' : State), loop P cl as s = Res.cont s' → s'.pings ≤ 3
  | [], s, s', h => by
    simp only [loop] at h
    split at h
    · simp only [Res.cont.injEq] at h
      subst h
      assumption
    · exact Res.noConfusion h
  | a :: as, s, s', h => by
    simp only [loop] at h
    split at h
    · cases hi : iter P cl a s with
      | cont s1 =>
        rw [hi] at h
        exact loop_cont_pings P cl as s1 s' h
      | done s1 w => rw [hi] at h; exact Res.noConfusion h
      | panic => rw [hi] at h; exact Res.noConfusion h
    · exact Res.noConfusion h

/-! ## Close signals -/

theorem iter_close (P : Consts) (cl : Client) (hP : P.Distinct) (a : Ans) (s : State)
    (b0 b1 b2 b3 : Nat) (rest : List Tok) (hd : a.setReadDeadline = none)
    (hsig : be32 [b0, b1, b2, b3] = P.closeSignal)
    (hinp : s.inp = Tok.byte b0 :: Tok.byte b1 :: Tok.byte b2 :: Tok.byte b3 :: rest) :
    ∃ s', iter P cl a s = (if s.isClosing then Res.done s' Exit.closeTwice else Res.cont s') ∧
      s'.isClosing = true ∧ s'.err = none ∧ s'.inp = rest ∧ s'.tasks = s.tasks ∧
      s'.pings = s.pings ∧ s'.lastPing = s.lastPing ∧ s'.peers = s.peers ∧
      s'.service = s.service ∧ s'.stuns = s.stuns ∧ s'.closing = s.closing ∧
      s'.trace = s.trace ++
        (if readTimeout cl.remoteTimeout > 0 then
          [Act.setReadDeadline (readTimeout cl.remoteTimeout)] else []) := by
  have hne : P.closeSignal ≠ P.pingSignal := by
    have := hP.1
    simp only [List.nodup_cons, List.mem_cons, not_or] at this
    exact fun h => this.1.1 h.symm
  by_cases ht : readTimeout cl.remoteTimeout > 0 <;> by_cases hc : s.isClosing = true
  all_goals
    simp only [iter, ht, hd, hinp, peek, discard, hsig, hne, hc, State.log, if_true, if_false,
      ne_eq, not_true_eq_false, Bool.false_eq_true]
    simp_all

/-- C6: a Close signal received while not draining sets the draining flag, changes neither
a task, a counter nor the registry, and the loop goes on; received while draining it ends the
loop with a nil error.  Hence, whatever the frames between two Close signals, as long as the
loop runs through them, the tunnel terminates at the second Close with a nil error. -/
theorem close_twice (P : Consts) (cl : Client) (hP : P.Distinct) :
    (∀ (a : Ans) (s : State) (b0 b1 b2 b3 : Nat) (rest : List Tok),
      a.setReadDeadline = none → be32 [b0, b1, b2, b3] = P.closeSignal →
      s.inp = Tok.byte b0 :: Tok.byte b1 :: Tok.byte b2 :: Tok.byte b3 :: rest →
      s.isClosing = false →
      ∃ s', iter P cl a s = Res.cont s' ∧ s'.isClosing = true ∧ s'.inp = rest ∧
        s'.tasks = s.tasks ∧ s'.pings = s.pings ∧ s'.lastPing = s.lastPing ∧
        s'.peers = s.peers ∧ s'.service = s.service ∧
        s'.trace = s.trace ++
          (if readTimeout cl.remoteTimeout > 0 then
            [Act.setReadDeadline (readTimeout cl.remoteTimeout)] else [])) ∧
    (∀ (a : Ans) (s : State) (b0 b1 b2 b3 : Nat) (rest : List Tok),
      a.setReadDeadline = none → be32 [b0, b1, b2, b3] = P.closeSignal →
      s.inp = Tok.byte b0 :: Tok.byte b1 :: Tok.byte b2 :: Tok.byte b3 :: rest →
      s.isClosing = true →
      ∃ s', iter P cl a s = Res.done s' Exit.closeTwice ∧ s'.err = none ∧
        s'.tasks = s.tasks ∧ s'.pings = s.pings ∧ s'.lastPing = s.lastPing) ∧
    (∀ (a1 a2 : Ans) (mid : List Ans) (s s2 : State) (b0 b1 b2 b3 c0 c1 c2 c3 : Nat)
      (rest rest2 : List Tok),
      s.pings ≤ 3 → s.isClosing = false →
      a1.setReadDeadline = none → be32 [b0, b1, b2, b3] = P.closeSignal →
      s.inp = Tok.byte b0 :: Tok.byte b1 :: Tok.byte b2 :: Tok.byte b3 :: rest →
      (∀ s1, iter P cl a1 s = Res.cont s1 → loop P cl mid s1 = Res.cont s2) →
      a2.setReadDeadline = none → be32 [c0, c1, c2, c3] = P.closeSignal →
      s2.inp = Tok.byte c0 :: Tok.byte c1 :: Tok.byte c2 :: Tok.byte c3 :: rest2 →
      ∃ s', loop P cl (a1 :: mid ++ [a2]) s = Res.done s' Exit.closeTwice ∧ s'.err = none ∧
        s'.inp = rest2) := by
  refine ⟨?_, ?_, ?_⟩
  · intro a s b0 b1 b2 b3 rest hd hsig hinp hc
    obtain ⟨s', h, h1, _, h3, h4, h5, h6, h7, h8, _, _, h11⟩ :=
      iter_close P cl hP a s b0 b1 b2 b3 rest hd hsig hinp
    simp only [hc, Bool.false_eq_true, if_false] at h
    exact ⟨s', h, h1, h3, h4, h5, h6, h7, h8, h11⟩
  · intro a s b0 b1 b2 b3 rest hd hsig hinp hc
    obtain ⟨s', h, _, h2, _, h4, h5, h6, _⟩ :=
      iter_close P cl hP a s b0 b1 b2 b3 rest hd hsig hinp
    simp only [hc, if_true] at h
    exact ⟨s', h, h2, h4, h5, h6⟩
  · intro a1 a2 mid s s2 b0 b1 b2 b3 c0 c1 c2 c3 rest rest2 hp hc hd1 hsig1 hinp1 hmid hd2
      hsig2 hinp2
    obtain ⟨s1, h1, hc1, _⟩ := iter_close P cl hP a1 s b0 b1 b2 b3 rest hd1 hsig1 hinp1
    simp only [hc, Bool.false_eq_true, if_false] at h1
    have hm := hmid s1 h1
    have hc2 : s2.isClosing = true := loop_isClosing P cl mid s1 s2 hm hc1
    have hp2 : s2.pings ≤ 3 := loop_cont_pings P cl mid s1 s2 hm
    obtain ⟨s', h2, _, he, hi, _⟩ := iter_close P cl hP a2 s2 c0 c1 c2 c3 rest2 hd2 hsig2 hinp2
    simp only [hc2, if_true] at h2
    refine ⟨s', ?_, he, hi⟩
    have hl : loop P cl (a1 :: (mid ++ [a2])) s = loop P cl (mid ++ [a2]) s1 := by
      simp [loop, hp, h1]
    rw [List.cons_append, hl, loop_append, hm]
    simp [loop, hp2, h2]

/-- The instance of C6 at the stream Close, Close read from a fresh state. -/
theorem close_twice_witness :
    ∃ s', loop demoConsts ⟨[120], [], 200, []⟩
        (⟨none, none, false, .ok 0, fun _ => ⟨.ok 0, none⟩, none, none⟩ :: [] ++
          [⟨none, none, false, .ok 0, fun _ => ⟨.ok 0, none⟩, none, none⟩])
        (State.fresh [] []
          [Tok.byte 255, Tok.byte 255, Tok.byte 255, Tok.byte 254,
            Tok.byte 255, Tok.byte 255, Tok.byte 255, Tok.byte 254]) =
        Res.done s' Exit.closeTwice ∧ s'.err = none ∧ s'.inp = [] :=
  (close_twice demoConsts ⟨[120], [], 200, []⟩ (by decide)).2.2
    ⟨none, none, false, .ok 0, fun _ => ⟨.ok 0, none⟩, none, none⟩
    ⟨none, none, false, .ok 0, fun _ => ⟨.ok 0, none⟩, none, none⟩ []
    (State.fresh [] []
      [Tok.byte 255, Tok.byte 255, Tok.byte 255, Tok.byte 254,
        Tok.byte 255, Tok.byte 255, Tok.byte 255, Tok.byte 254])
    { State.fresh [] [] [Tok.byte 255, Tok.byte 255, Tok.byte 255, Tok.byte 254] with
      isClosing := true, trace := [Act.setReadDeadline 100] }
    255 255 255 254 255 255 255 254
    [Tok.byte 255, Tok.byte 255, Tok.byte 255, Tok.byte 254] []
    (by decide) rfl rfl (by decide) rfl
    (fun s1 h => by
      have e : iter demoConsts ⟨[120], [], 200, []⟩
          ⟨none, none, false, .ok 0, fun _ => ⟨.ok 0, none⟩, none, none⟩
          (State.fresh [] []
            [Tok.byte 255, Tok.byte 255, Tok.byte 255, Tok.byte 254,
              Tok.byte 255, Tok.byte 255, Tok.byte 255, Tok.byte 254]) =
          Res.cont { State.fresh [] []
            [Tok.byte 255, Tok.byte 255, Tok.byte 255, Tok.byte 254] with
            isClosing := true, trace := [Act.setReadDeadline 100] } := by decide
      rw [e] at h
      cases h
      decide)
    rfl (by decide) rfl

/-! ## Invalid service index -/

/-- C7: a frame with option Data when no service is configured, or with option ServicesData
and a service index that is at least the number of services, ends the loop at
"invalid service index": nothing is dialled and no collaborator is called beyond the read
deadline, the registry, the peer map and the current service are as before, and the stream
is left at the payload length, which is not read. -/
theorem invalid_service_index (P : Consts) (cl : Client) (hP : P.Distinct) (a : Ans)
    (s : State) (t0 t1 t2 t3 o0 o1 : Nat) (hd : a.setReadDeadline = none)
    (hsig : be32 [t0, t1, t2, t3] ∉
      [P.pingSignal, P.closeSignal, P.readySignal, P.errorSignal, P.infoSignal]) :
    (∀ rest : List Tok, be16 [o0, o1] = P.data → cl.services.length ≤ 0 →
      s.inp = Tok.byte t0 :: Tok.byte t1 :: Tok.byte t2 :: Tok.byte t3 ::
        Tok.byte o0 :: Tok.byte o1 :: rest →
      ∃ s', iter P cl a s = Res.done s' Exit.invalidServiceIndex ∧ s'.inp = rest ∧
        s'.tasks = s.tasks ∧ s'.peers = s.peers ∧ s'.service = s.service ∧
        s'.pings = s.pings ∧ s'.isClosing = s.isClosing ∧
        s'.trace = s.trace ++
          (if readTimeout cl.remoteTimeout > 0 then
            [Act.setReadDeadline (readTimeout cl.remoteTimeout)] else [])) ∧
    (∀ (i0 i1 : Nat) (rest : List Tok), be16 [o0, o1] = P.servicesData →
      cl.services.length ≤ be16 [i0, i1] →
      s.inp = Tok.byte t0 :: Tok.byte t1 :: Tok.byte t2 :: Tok.byte t3 ::
        Tok.byte o0 :: Tok.byte o1 :: Tok.byte i0 :: Tok.byte i1 :: rest →
      ∃ s', iter P cl a s = Res.done s' Exit.invalidServiceIndex ∧ s'.inp = rest ∧
        s'.tasks = s.tasks ∧ s'.peers = s.peers ∧ s'.service = s.service ∧
        s'.pings = s.pings ∧ s'.isClosing = s.isClosing ∧
        s'.trace = s.trace ++
          (if readTimeout cl.remoteTimeout > 0 then
            [Act.setReadDeadline (readTimeout cl.remoteTimeout)] else [])) := by
  simp only [List.mem_cons, List.mem_singleton, List.not_mem_nil, or_false, not_or] at hsig
  obtain ⟨h1, h2, h3, h4, h5⟩ := hsig
  have hne : P.servicesData ≠ P.data := by
    have := hP.2
    simp only [List.nodup_cons, List.mem_cons, not_or] at this
    exact fun h => this.1.1 h.symm
  constructor
  · intro rest hopt hlen hinp
    have hz : cl.services.length = 0 := by omega
    by_cases ht : readTimeout cl.remoteTimeout > 0
    all_goals
      simp only [iter, dataFrame, ht, hd, hinp, peek, discard, h1, h2, h3, h4, h5, hopt, hz,
        State.log, if_true, if_false, ne_eq, not_true_eq_false, true_or]
      simp
  · intro i0 i1 rest hopt hlen hinp
    have hm : cl.services.length % 65536 ≤ be16 [i0, i1] :=
      le_trans (Nat.mod_le _ _) hlen
    by_cases ht : readTimeout cl.remoteTimeout > 0
    all_goals
      simp only [iter, dataFrame, ht, hd, hinp, peek, discard, h1, h2, h3, h4, h5, hopt, hne,
        State.log, if_true, if_false, ne_eq, not_true_eq_false, not_false_eq_true, or_true,
        ge_iff_le, hm]
      simp

/-- The instance of C7 at a ServicesData frame for task 7 with service index 1 and one
service configured. -/
theorem invalid_service_index_witness :
    ∃ s', iter demoConsts
        ⟨[120], [], 200, [⟨"http", "127.0.0.1:80", none, 0, [120], false, 0⟩]⟩
        ⟨none, none, false, .ok 0, fun _ => ⟨.ok 0, none⟩, none, none⟩
        (State.fresh [] []
          [Tok.byte 0, Tok.byte 0, Tok.byte 0, Tok.byte 7, Tok.byte 0, Tok.byte 2,
            Tok.byte 0, Tok.byte 1, Tok.byte 0, Tok.byte 0, Tok.byte 0, Tok.byte 5]) =
        Res.done s' Exit.invalidServiceIndex ∧
      s'.inp = [Tok.byte 0, Tok.byte 0, Tok.byte 0, Tok.byte 5] ∧ s'.tasks = [] ∧
      s'.trace = [Act.setReadDeadline 100] := by
  obtain ⟨s', h, h1, h2, _, _, _, _, h7⟩ :=
    (invalid_service_index demoConsts
      ⟨[120], [], 200, [⟨"http", "127.0.0.1:80", none, 0, [120], false, 0⟩]⟩ (by decide)
      ⟨none, none, false, .ok 0, fun _ => ⟨.ok 0, none⟩, none, none⟩
      (State.fresh [] []
        [Tok.byte 0, Tok.byte 0, Tok.byte 0, Tok.byte 7, Tok.byte 0, Tok.byte 2,
          Tok.byte 0, Tok.byte 1, Tok.byte 0, Tok.byte 0, Tok.byte 0, Tok.byte 5])
      0 0 0 7 0 2 rfl (by decide)).2 0 1
      [Tok.byte 0, Tok.byte 0, Tok.byte 0, Tok.byte 5] (by decide) (by decide) rfl
  exact ⟨s', h, h1, h2, h7⟩

/-! ## Errors of the copy in `processData` -/

/-- For a task bound in the registry `processData` is the copy of the payload, classified by
`classify`; a positive `LocalTimeout` replaces the write error by the result of
`task.conn.SetReadDeadline`. -/
theorem processData_bound (a : Ans) (taskID n : Nat) (s : State) (task : HttpTask)
    (svc : Service) (hreg : lookup taskID s.tasks = some task) (hsvc : s.service = some svc) :
    ∃ r, processData a taskID n s = some r ∧
      r.readErr = (classify (writeTo a.sink n s.inp).1).1 ∧
      r.writeErr = (if svc.localTimeout > 0 then a.backendDeadline
        else (classify (writeTo a.sink n s.inp).1).2) ∧
      r.n = (writeTo a.sink n s.inp).2.2.1 ∧
      r.s.inp = (writeTo a.sink n s.inp).2.2.2 ∧
      r.s.tasks = s.tasks ∧ r.s.peers = s.peers ∧
      r.s.trace = s.trace ++ Act.writeTo task.conn (writeTo a.sink n s.inp).2.1 ::
        (if svc.localTimeout > 0 then [Act.taskSetReadDeadline task.conn svc.localTimeout]
          else []) := by
  by_cases hl : svc.localTimeout > 0 <;>
    simp [processData, copyPayload, hreg, hsvc, hl, State.log]

/-- C8, the case the code misses: when the copy of the payload into a bound task fails with a
network operation error whose operation is not `"write"` (and `LocalTimeout` is not
positive), `processData` returns a nil read error and a nil write error: the error is
reported to nobody. -/
theorem copy_error_dropped (a : Ans) (taskID n : Nat) (s : State) (task : HttpTask)
    (svc : Service) (op : String) (t : Bool)
    (hreg : lookup taskID s.tasks = some task) (hsvc : s.service = some svc)
    (hlt : svc.localTimeout ≤ 0)
    (herr : (writeTo a.sink n s.inp).1 = some (Err.opError op t)) (hop : op ≠ "write") :
    ∃ r, processData a taskID n s = some r ∧ r.readErr = none ∧ r.writeErr = none := by
  obtain ⟨r, h, h1, h2, _⟩ := processData_bound a taskID n s task svc hreg hsvc
  refine ⟨r, h, ?_, ?_⟩
  · rw [h1, herr]
    simp [classify, hop]
  · rw [h2, herr]
    simp [classify, hop, not_lt.mpr hlt]

/-- The instance of C8 at its failing input: task 7 is bound, the payload of 5 bytes is cut
after 2 bytes by a read timeout of the tunnel socket. -/
theorem copy_error_dropped_witness :
    ∃ r, processData ⟨none, none, false, .ok 0, fun _ => ⟨.ok 0, none⟩, none, none⟩ 7 5
        { State.fresh [] []
            [Tok.byte 104, Tok.byte 101, Tok.fail (Err.opError "read" true),
              Tok.byte 108, Tok.byte 108, Tok.byte 111] with
          tasks := [(7, ⟨1⟩)]
          service := some ⟨"http", "127.0.0.1:80", none, 0, [120], false, 0⟩ } = some r ∧
      r.readErr = none ∧ r.writeErr = none :=
  copy_error_dropped ⟨none, none, false, .ok 0, fun _ => ⟨.ok 0, none⟩, none, none⟩ 7 5
    { State.fresh [] []
        [Tok.byte 104, Tok.byte 101, Tok.fail (Err.opError "read" true),
          Tok.byte 108, Tok.byte 108, Tok.byte 111] with
      tasks := [(7, ⟨1⟩)]
      service := some ⟨"http", "127.0.0.1:80", none, 0, [120], false, 0⟩ }
    ⟨1⟩ ⟨"http", "127.0.0.1:80", none, 0, [120], false, 0⟩ "read" true
    (by decide) rfl (by decide) (by decide) (by decide)

/-- The read loop at the failing input of C8: the frame (task 7, Data, length 5) whose
payload is cut after 2 bytes by a read timeout does not end the loop: the task receives 2
bytes, the 3 bytes left are discarded, and the loop goes on with a nil error. -/
theorem copy_error_dropped_loop :
    iter demoConsts ⟨[120], [], 200, [⟨"http", "127.0.0.1:80", none, 0, [120], false, 0⟩]⟩
        ⟨none, none, false, .ok 0, fun _ => ⟨.ok 0, none⟩, none, none⟩
        { State.fresh [] []
            [Tok.byte 0, Tok.byte 0, Tok.byte 0, Tok.byte 7, Tok.byte 0, Tok.byte 0,
              Tok.byte 0, Tok.byte 0, Tok.byte 0, Tok.byte 5,
              Tok.byte 104, Tok.byte 101, Tok.fail (Err.opError "read" true),
              Tok.byte 108, Tok.byte 108, Tok.byte 111] with
          tasks := [(7, ⟨1⟩)] } =
      Res.cont
        { State.fresh [] [] [] with
          tasks := [(7, ⟨1⟩)]
          service := some ⟨"http", "127.0.0.1:80", none, 0, [120], false, 0⟩
          trace := [Act.setReadDeadline 100, Act.writeTo 1 [104, 101]] } := by
  decide

/-! ## Dialling the backend -/

theorem dial_eq (d : DialAns) (s : State) :
    dial d s =
      s.service.bind (fun svc =>
        some ((dialTask d, dialErr d svc), { s with trace := s.trace ++ dialActs d svc })) := by
  unfold dial dialTask dialErr dialActs
  cases hs : s.service with
  | none => simp
  | some svc =>
    cases hd : d.netDial with
    | error e => simp [State.log, hs]
    | ok conn => by_cases hu : svc.useLocalAsHTTPHost = true <;> simp [State.log, hu, hs]

theorem dialLoop_three (a : Ans) (s : State) (svc : Service) (hsvc : s.service = some svc) :
    dialLoop a 3 0 (none, none) s =
      some (
        if dialErr (a.dial 0) svc = none then
          ((dialTask (a.dial 0), none), { s with trace := s.trace ++ dialActs (a.dial 0) svc })
        else if dialErr (a.dial 1) svc = none then
          ((dialTask (a.dial 1), none),
            { s with trace := s.trace ++ dialActs (a.dial 0) svc ++ dialActs (a.dial 1) svc })
        else
          ((dialTask (a.dial 2), dialErr (a.dial 2) svc),
            { s with trace := s.trace ++ dialActs (a.dial 0) svc ++ dialActs (a.dial 1) svc ++
                dialActs (a.dial 2) svc })) := by
  by_cases e0 : dialErr (a.dial 0) svc = none
  · simp [dialLoop, dial_eq, hsvc, e0]
  · by_cases e1 : dialErr (a.dial 1) svc = none
    · simp [dialLoop, dial_eq, hsvc, e0, e1]
    · by_cases e2 : dialErr (a.dial 2) svc = none <;> simp [dialLoop, dial_eq, hsvc, e0, e1, e2]

theorem dialCount_dialActs (d : DialAns) (svc : Service) : dialCount (dialActs d svc) = 1 := by
  unfold dialCount dialActs
  cases d.netDial with
  | error e => simp
  | ok conn => by_cases hu : svc.useLocalAsHTTPHost = true <;> simp [hu]

theorem dialActs_shape (d : DialAns) (svc : Service) :
    ∀ x ∈ dialActs d svc, (∃ h, x = Act.dial h) ∨ (∃ c h, x = Act.setHost c h) := by
  unfold dialActs
  cases d.netDial with
  | error e => simp
  | ok conn => by_cases hu : svc.useLocalAsHTTPHost = true <;> simp [hu]

theorem dialTask_of_ok (d : DialAns) (svc : Service) (h : dialErr d svc = none) :
    ∃ task, dialTask d = some task := by
  unfold dialErr at h
  unfold dialTask
  cases hd : d.netDial with
  | error e => simp [hd] at h
  | ok conn => exact ⟨⟨conn⟩, rfl⟩

theorem copyPayload_trace (a : Ans) (n : Nat) (task : HttpTask) (s : State) (svc : Service)
    (hsvc : s.service = some svc) :
    ∃ r tail, copyPayload a n task s = some r ∧ r.s.trace = s.trace ++ tail ∧
      dialCount tail = 0 := by
  have h : ∃ r, copyPayload a n task s = some r ∧
      r.s.trace = s.trace ++ Act.writeTo task.conn (writeTo a.sink n s.inp).2.1 ::
        (if svc.localTimeout > 0 then [Act.taskSetReadDeadline task.conn svc.localTimeout]
          else []) := by
    by_cases hl : svc.localTimeout > 0 <;> simp [copyPayload, hsvc, hl, State.log]
  obtain ⟨r, h1, h2⟩ := h
  refine ⟨r, _, h1, h2, ?_⟩
  by_cases hl : svc.localTimeout > 0 <;> simp [dialCount, hl]

theorem dialCount_spawn (taskID conn : Nat) (lt : Int) (t : List Act) :
    dialCount (Act.spawn taskID conn lt :: t) = dialCount t := by
  simp [dialCount]

theorem dialCount_append (t u : List Act) : dialCount (t ++ u) = dialCount t + dialCount u := by
  simp [dialCount]

/-- C9: for a data frame whose task id is not in the registry and which is not handed to the
P2P path, `processData` calls `dial` at most three times and stops at the first success; when
the three attempts fail it returns a nil read error and the last dial error as write error,
the registry and the stream are as before, and nothing but the dial attempts was done: no
task is spawned and no payload byte is written. -/
theorem dial_retries (a : Ans) (taskID n : Nat) (s : State) (svc : Service)
    (peekBytes : List Nat) (inp : List Tok)
    (hreg : lookup taskID s.tasks = none) (hsvc : s.service = some svc)
    (hpeek : limitedPeek 2 n s.inp = (.ok peekBytes, inp))
    (hp2p : ¬ ((lookup taskID s.peers).join ≠ none ∨
      (be16 peekBytes = 0x5850 ∧ (lookup taskID s.peers).isSome = false))) :
    ∃ r new, processData a taskID n s = some r ∧ r.s.trace = s.trace ++ new ∧
      dialCount new ≤ 3 ∧
      (dialErr (a.dial 0) svc = none → dialCount new = 1) ∧
      (dialErr (a.dial 0) svc ≠ none → dialErr (a.dial 1) svc = none → dialCount new = 2) ∧
      (dialErr (a.dial 0) svc ≠ none → dialErr (a.dial 1) svc ≠ none → dialCount new = 3) ∧
      (dialErr (a.dial 0) svc ≠ none → dialErr (a.dial 1) svc ≠ none →
        dialErr (a.dial 2) svc ≠ none →
        r.readErr = none ∧ r.writeErr = dialErr (a.dial 2) svc ∧ r.writeErr ≠ none ∧
          r.s.tasks = s.tasks ∧ r.s.peers = s.peers ∧ r.s.inp = s.inp ∧ r.n = n ∧
          ∀ x ∈ new, (∃ h, x = Act.dial h) ∨ (∃ c h, x = Act.setHost c h)) := by
  have hpt : (lookup taskID s.peers).join = none := by
    by_contra h
    exact hp2p (Or.inl h)
  have hcond : ¬ (((lookup taskID s.peers).join ≠ none) ∨
      ((decide (be16 peekBytes = 0x5850) = true) ∧ ¬ ((lookup taskID s.peers).isSome = true))) := by
    rintro (h | ⟨h1, h2⟩)
    · exact h hpt
    · exact hp2p (Or.inr ⟨by simpa using h1, by simpa using h2⟩)
  have hpd : processData a taskID n s =
      (do
        let ((task, writeErr), s) ← dialLoop a 3 0 (none, none) s
        if writeErr ≠ none then pure ⟨none, writeErr, n, s⟩
        else
          let task ← task
          let service ← s.service
          let s := { s with tasks := insert taskID task s.tasks }
          let s := s.log (Act.spawn taskID task.conn service.localTimeout)
          copyPayload a n task s) := by
    simp only [processData, hreg, hpeek]
    rw [if_neg hcond]
  rw [hpd, dialLoop_three a s svc hsvc]
  have hc0 := dialCount_dialActs (a.dial 0) svc
  have hc1 := dialCount_dialActs (a.dial 1) svc
  have hc2 := dialCount_dialActs (a.dial 2) svc
  by_cases e0 : dialErr (a.dial 0) svc = none
  · obtain ⟨task, htask⟩ := dialTask_of_ok _ _ e0
    obtain ⟨r, tail, hr, htr, hct⟩ := copyPayload_trace a n task
      ({ s with trace := s.trace ++ dialActs (a.dial 0) svc,
                tasks := insert taskID task s.tasks }.log
        (Act.spawn taskID task.conn svc.localTimeout)) svc (by simp [State.log, hsvc])
    refine ⟨r, dialActs (a.dial 0) svc ++ Act.spawn taskID task.conn svc.localTimeout :: tail,
      ?_, ?_, ?_, ?_, ?_, ?_, ?_⟩
    · simp [e0, htask, hsvc, State.log, ← hr]
    · simp [htr, State.log]
    · simp only [dialCount_append, dialCount_spawn, hc0, hct] <;> omega
    · intro _; simp only [dialCount_append, dialCount_spawn, hc0, hct] <;> omega
    · intro h; exact absurd e0 h
    · intro h; exact absurd e0 h
    · intro h; exact absurd e0 h
  · by_cases e1 : dialErr (a.dial 1) svc = none
    · obtain ⟨task, htask⟩ := dialTask_of_ok _ _ e1
      obtain ⟨r, tail, hr, htr, hct⟩ := copyPayload_trace a n task
        ({ s with trace := s.trace ++ dialActs (a.dial 0) svc ++ dialActs (a.dial 1) svc,
                  tasks := insert taskID task s.tasks }.log
          (Act.spawn taskID task.conn svc.localTimeout)) svc (by simp [State.log, hsvc])
      refine ⟨r, dialActs (a.dial 0) svc ++ dialActs (a.dial 1) svc ++
        Act.spawn taskID task.conn svc.localTimeout :: tail, ?_, ?_, ?_, ?_, ?_, ?_, ?_⟩
      · simp [e0, e1, htask, hsvc, State.log, ← hr]
      · simp [htr, State.log]
      · simp only [dialCount_append, dialCount_spawn, hc0, hc1, hct] <;> omega
      · intro h; exact absurd h e0
      · intro _ _; simp only [dialCount_append, dialCount_spawn, hc0, hc1, hct] <;> omega
      · intro _ h; exact absurd e1 h
      · intro _ h; exact absurd e1 h
    · by_cases e2 : dialErr (a.dial 2) svc = none
      · obtain ⟨task, htask⟩ := dialTask_of_ok _ _ e2
        obtain ⟨r, tail, hr, htr, hct⟩ := copyPayload_trace a n task
          ({ s with trace := s.trace ++ dialActs (a.dial 0) svc ++ dialActs (a.dial 1) svc ++
                      dialActs (a.dial 2) svc,
                    tasks := insert taskID task s.tasks }.log
            (Act.spawn taskID task.conn svc.localTimeout)) svc (by simp [State.log, hsvc])
        refine ⟨r, dialActs (a.dial 0) svc ++ dialActs (a.dial 1) svc ++
          dialActs (a.dial 2) svc ++ Act.spawn taskID task.conn svc.localTimeout :: tail,
          ?_, ?_, ?_, ?_, ?_, ?_, ?_⟩
        · simp [e0, e1, e2, htask, hsvc, State.log, ← hr]
        · simp [htr, State.log]
        · simp only [dialCount_append, dialCount_spawn, hc0, hc1, hc2, hct] <;> omega
        · intro h; exact absurd h e0
        · intro _ h; exact absurd h e1
        · intro _ _; simp only [dialCount_append, dialCount_spawn, hc0, hc1, hc2, hct] <;> omega
        · intro _ _ h; exact absurd e2 h
      · refine ⟨⟨none, dialErr (a.dial 2) svc, n,
            { s with trace := s.trace ++ dialActs (a.dial 0) svc ++ dialActs (a.dial 1) svc ++
                dialActs (a.dial 2) svc }⟩,
          dialActs (a.dial 0) svc ++ dialActs (a.dial 1) svc ++ dialActs (a.dial 2) svc,
          ?_, ?_, ?_, ?_, ?_, ?_, ?_⟩
        · simp [e0, e1, e2]
        · simp
        · simp only [dialCount_append, hc0, hc1, hc2] <;> omega
        · intro h; exact absurd h e0
        · intro _ h; exact absurd h e1
        · intro _ _; simp only [dialCount_append, hc0, hc1, hc2] <;> omega
        · intro _ _ _
          refine ⟨rfl, rfl, e2, rfl, rfl, rfl, rfl, ?_⟩
          intro x hx
          simp only [List.mem_append] at hx
          rcases hx with (hx | hx) | hx <;> exact dialActs_shape _ _ x hx

/-- The instance of C9 at task 7, a payload `"hello"` and three refused connections. -/
theorem dial_retries_witness :
    ∃ r new,
      processData ⟨none, none, false, .ok 0, fun i => ⟨.error (Err.other i), none⟩, none, none⟩
          7 5
          { State.fresh [] []
              [Tok.byte 104, Tok.byte 101, Tok.byte 108, Tok.byte 108, Tok.byte 111] with
            service := some ⟨"http", "127.0.0.1:80", none, 0, [120], false, 0⟩ } = some r ∧
        r.s.trace = [] ++ new ∧ dialCount new = 3 ∧ r.readErr = none ∧
        r.writeErr = some (Err.other 2) ∧ r.s.tasks = [] := by
  obtain ⟨r, new, h, h1, _, _, _, h5, h6⟩ :=
    dial_retries ⟨none, none, false, .ok 0, fun i => ⟨.error (Err.other i), none⟩, none, none⟩
      7 5
      { State.fresh [] []
          [Tok.byte 104, Tok.byte 101, Tok.byte 108, Tok.byte 108, Tok.byte 111] with
        service := some ⟨"http", "127.0.0.1:80", none, 0, [120], false, 0⟩ }
      ⟨"http", "127.0.0.1:80", none, 0, [120], false, 0⟩ [104, 101]
      [Tok.byte 104, Tok.byte 101, Tok.byte 108, Tok.byte 108, Tok.byte 111]
      (by decide) rfl rfl (by decide)
  obtain ⟨h7, h8, _, h9, _⟩ := h6 (by decide) (by decide) (by decide)
  exact ⟨r, new, h, h1, h5 (by decide) (by decide), h7, h8, h9⟩

/-! ## P2P frames without a STUN server -/

/-- C10: for a data frame whose task id is neither in the registry nor in the peer map,
whose payload starts with `0x58 0x50`, and with no STUN server configured, `processData`
sends the 403 closing response for that task id and nothing else: no task and no peer task
is made, the registry, the peer map and the stream are as before, both errors are nil.  The
read loop then discards the whole payload and goes on with the next frame. -/
theorem p2p_without_stun (P : Consts) (cl : Client) (hP : P.Distinct) (a : Ans)
    (taskID : Nat) (s : State)
    (hreg : lookup taskID s.tasks = none) (hpeer : lookup taskID s.peers = none)
    (hstun : s.stuns = []) :
    (∀ (n : Nat) (tl : List Tok), 2 ≤ n → s.inp = Tok.byte 0x58 :: Tok.byte 0x50 :: tl →
      processData a taskID n s =
        some ⟨none, none, n, s.log (Act.respAndClose taskID
          ["HTTP/1.1 403 Forbidden\r\nConnection: Closed\r\n\r\n"])⟩) ∧
    (∀ (t0 t1 t2 t3 o0 o1 l0 l1 l2 l3 : Nat) (payload : List Nat) (rest : List Tok)
      (svc : Service),
      a.setReadDeadline = none →
      be32 [t0, t1, t2, t3] = taskID →
      taskID ∉ [P.pingSignal, P.closeSignal, P.readySignal, P.errorSignal, P.infoSignal] →
      be16 [o0, o1] = P.data → cl.services.get? 0 = some svc →
      cl.services.length % 65536 ≠ 0 →
      be32 [l0, l1, l2, l3] = (0x58 :: 0x50 :: payload).length →
      s.inp = [Tok.byte t0, Tok.byte t1, Tok.byte t2, Tok.byte t3, Tok.byte o0, Tok.byte o1,
        Tok.byte l0, Tok.byte l1, Tok.byte l2, Tok.byte l3] ++
        ((0x58 :: 0x50 :: payload).map Tok.byte ++ rest) →
      ∃ s', iter P cl a s = Res.cont s' ∧ s'.inp = rest ∧ s'.tasks = s.tasks ∧
        s'.peers = s.peers ∧ s'.err = none ∧ s'.pings = s.pings ∧
        s'.isClosing = s.isClosing ∧
        s'.trace = s.trace ++
          (if readTimeout cl.remoteTimeout > 0 then
            [Act.setReadDeadline (readTimeout cl.remoteTimeout)] else []) ++
          [Act.respAndClose taskID
            ["HTTP/1.1 403 Forbidden\r\nConnection: Closed\r\n\r\n"]]) ∧
    (∀ (t0 t1 t2 t3 o0 o1 i0 i1 l0 l1 l2 l3 : Nat) (payload : List Nat) (rest : List Tok)
      (svc : Service),
      a.setReadDeadline = none →
      be32 [t0, t1, t2, t3] = taskID →
      taskID ∉ [P.pingSignal, P.closeSignal, P.readySignal, P.errorSignal, P.infoSignal] →
      be16 [o0, o1] = P.servicesData → cl.services.get? (be16 [i0, i1]) = some svc →
      be16 [i0, i1] < cl.services.length % 65536 →
      be32 [l0, l1, l2, l3] = (0x58 :: 0x50 :: payload).length →
      s.inp = [Tok.byte t0, Tok.byte t1, Tok.byte t2, Tok.byte t3, Tok.byte o0, Tok.byte o1,
        Tok.byte i0, Tok.byte i1, Tok.byte l0, Tok.byte l1, Tok.byte l2, Tok.byte l3] ++
        ((0x58 :: 0x50 :: payload).map Tok.byte ++ rest) →
      ∃ s', iter P cl a s = Res.cont s' ∧ s'.inp = rest ∧ s'.tasks = s.tasks ∧
        s'.peers = s.peers ∧ s'.err = none ∧ s'.pings = s.pings ∧
        s'.isClosing = s.isClosing ∧
        s'.trace = s.trace ++
          (if readTimeout cl.remoteTimeout > 0 then
            [Act.setReadDeadline (readTimeout cl.remoteTimeout)] else []) ++
          [Act.respAndClose taskID
            ["HTTP/1.1 403 Forbidden\r\nConnection: Closed\r\n\r\n"]]) := by
  have hpd : ∀ (n : Nat) (tl : List Tok) (s0 : State), lookup taskID s0.tasks = none →
      lookup taskID s0.peers = none → s0.stuns = [] → 2 ≤ n →
      s0.inp = Tok.byte 0x58 :: Tok.byte 0x50 :: tl →
      processData a taskID n s0 =
        some ⟨none, none, n, s0.log (Act.respAndClose taskID
          ["HTTP/1.1 403 Forbidden\r\nConnection: Closed\r\n\r\n"])⟩ := by
    intro n tl s0 h1 h2 h3 hn hinp
    have hb : be16 [0x58, 0x50] = 0x5850 := by decide
    simp [processData, h1, h2, h3, limitedPeek, hn, hinp, peek, hb]
  have hne : P.servicesData ≠ P.data := by
    have := hP.2
    simp only [List.nodup_cons, List.mem_cons, not_or] at this
    exact fun h => this.1.1 h.symm
  refine ⟨fun n tl hn hinp => hpd n tl s hreg hpeer hstun hn hinp, ?_, ?_⟩
  · intro t0 t1 t2 t3 o0 o1 l0 l1 l2 l3 payload rest svc hd hid hsig hopt hsvc hlen hl hinp
    simp only [List.mem_cons, List.mem_singleton, List.not_mem_nil, or_false, not_or] at hsig
    obtain ⟨h1, h2, h3, h4, h5⟩ := hsig
    have hdis := discard_bytes rest (0x58 :: 0x50 :: payload)
    have hge : ¬ (0 ≥ cl.services.length % 65536) := by omega
    simp only [List.cons_append, List.nil_append, List.map_cons, List.length_cons] at hinp hdis
    by_cases ht : readTimeout cl.remoteTimeout > 0
    all_goals
      simp only [iter, dataFrame, ht, hd, hinp, peek, discard, hid, h1, h2, h3, h4, h5, hopt,
        State.log, if_true, if_false, ne_eq, not_true_eq_false, true_or, hge, hsvc, hl]
      rw [hpd _ (payload.map Tok.byte ++ rest) _ (by simpa using hreg) (by simpa using hpeer)
        (by simpa using hstun) (by simp) rfl]
      simp only [List.length_cons, Nat.succ_pos, gt_iff_lt, State.log, if_true, ne_eq,
        not_true_eq_false, if_false, hdis, Nat.zero_lt_succ]
      simp
  · intro t0 t1 t2 t3 o0 o1 i0 i1 l0 l1 l2 l3 payload rest svc hd hid hsig hopt hsvc hlen hl
      hinp
    simp only [List.mem_cons, List.mem_singleton, List.not_mem_nil, or_false, not_or] at hsig
    obtain ⟨h1, h2, h3, h4, h5⟩ := hsig
    have hdis := discard_bytes rest (0x58 :: 0x50 :: payload)
    have hge : ¬ (be16 [i0, i1] ≥ cl.services.length % 65536) := by omega
    simp only [List.cons_append, List.nil_append, List.map_cons, List.length_cons] at hinp hdis
    by_cases ht : readTimeout cl.remoteTimeout > 0
    all_goals
      simp only [iter, dataFrame, ht, hd, hinp, peek, discard, hid, h1, h2, h3, h4, h5, hopt,
        hne, State.log, if_true, if_false, ne_eq, not_true_eq_false, not_false_eq_true,
        or_true, hge, hsvc, hl]
      rw [hpd _ (payload.map Tok.byte ++ rest) _ (by simpa using hreg) (by simpa using hpeer)
        (by simpa using hstun) (by simp) rfl]
      simp only [List.length_cons, Nat.succ_pos, gt_iff_lt, State.log, if_true, ne_eq,
        not_true_eq_false, if_false, hdis, Nat.zero_lt_succ]
      simp

/-- The instance of C10 at scenario S4: task 9, option Data, length 4, payload
`58 50 00 00`, no STUN server, followed by one more byte of the next frame. -/
theorem p2p_without_stun_witness :
    ∃ s', iter demoConsts
        ⟨[120], [], 200, [⟨"http", "127.0.0.1:80", none, 0, [120], false, 0⟩]⟩
        ⟨none, none, false, .ok 0, fun _ => ⟨.ok 0, none⟩, none, none⟩
        (State.fresh [] []
          ([Tok.byte 0, Tok.byte 0, Tok.byte 0, Tok.byte 9, Tok.byte 0, Tok.byte 0,
            Tok.byte 0, Tok.byte 0, Tok.byte 0, Tok.byte 4] ++
            (([0x58, 0x50, 0, 0] : List Nat).map Tok.byte ++ [Tok.byte 255]))) =
        Res.cont s' ∧
      s'.inp = [Tok.byte 255] ∧ s'.tasks = [] ∧ s'.peers = [] ∧
      s'.trace = [Act.setReadDeadline 100,
        Act.respAndClose 9 ["HTTP/1.1 403 Forbidden\r\nConnection: Closed\r\n\r\n"]] := by
  obtain ⟨s', h, h1, h2, h3, _, _, _, h7⟩ :=
    (p2p_without_stun demoConsts
      ⟨[120], [], 200, [⟨"http", "127.0.0.1:80", none, 0, [120], false, 0⟩]⟩ (by decide)
      ⟨none, none, false, .ok 0, fun _ => ⟨.ok 0, none⟩, none, none⟩ 9
      (State.fresh [] []
        ([Tok.byte 0, Tok.byte 0, Tok.byte 0, Tok.byte 9, Tok.byte 0, Tok.byte 0,
          Tok.byte 0, Tok.byte 0, Tok.byte 0, Tok.byte 4] ++
          (([0x58, 0x50, 0, 0] : List Nat).map Tok.byte ++ [Tok.byte 255])))
      (by decide) (by decide) rfl).2.1 0 0 0 9 0 0 0 0 0 4 [0, 0] [Tok.byte 255]
      ⟨"http", "127.0.0.1:80", none, 0, [120], false, 0⟩ rfl (by decide) (by decide)
      (by decide) rfl (by decide) (by decide) rfl
  exact ⟨s', h, h1, h2, h3, h7⟩

/-! ## `Close` -/

theorem close_open (s : State) (h : s.closing = 0) :
    close s =
      { s with
        closing := 1
        trace := s.trace ++
          (s.tasks.map (fun (p : Nat × HttpTask) => Act.taskClose p.2.conn) ++
            [Act.closeOnce]) } := by
  simp [close, h, State.log]

theorem close_closed (s : State) (h : s.closing ≠ 0) : close s = s := by
  simp [close, h]

theorem close_iterate (s : State) (h : s.closing = 0) :
    ∀ n : Nat, Nat.iterate close (n + 1) s = close s
  | 0 => rfl
  | n + 1 => by
    rw [Function.iterate_succ_apply', close_iterate s h n]
    exact close_closed _ (by rw [close_open s h]; simp)

/-- C12: on a tunnel whose closing flag is 0, `Close` sets the flag to 1, calls `Close` once
for every entry of the registry and then closes the socket once; on a tunnel whose flag is
already 1 it changes nothing and calls nothing.  Hence any number of calls, one at least,
leaves the state of the first call: the flag went from 0 to 1 once, every registered task was
closed exactly once and the socket was closed once. -/
theorem close_idempotent (s : State) (h : s.closing = 0) :
    close s =
        { s with
          closing := 1
          trace := s.trace ++
            (s.tasks.map (fun (p : Nat × HttpTask) => Act.taskClose p.2.conn) ++
              [Act.closeOnce]) } ∧
      (∀ s1 : State, s1.closing = 1 → close s1 = s1) ∧
      close (close s) = close s ∧
      (∀ n : Nat, Nat.iterate close (n + 1) s = close s) ∧
      (∀ n : Nat, (Nat.iterate close (n + 1) s).closing = 1 ∧
        ((Nat.iterate close (n + 1) s).trace.drop s.trace.length).count Act.closeOnce = 1 ∧
        ((s.tasks.map (fun (p : Nat × HttpTask) => p.2.conn)).Nodup →
          ∀ p ∈ s.tasks,
            ((Nat.iterate close (n + 1) s).trace.drop s.trace.length).count
              (Act.taskClose p.2.conn) = 1)) := by
  have hopen := close_open s h
  have hdrop : (close s).trace.drop s.trace.length =
      s.tasks.map (fun (p : Nat × HttpTask) => Act.taskClose p.2.conn) ++ [Act.closeOnce] := by
    rw [hopen]
    simp
  refine ⟨hopen, fun s1 h1 => close_closed s1 (by rw [h1]; simp), ?_, close_iterate s h, ?_⟩
  · exact close_closed _ (by rw [hopen]; simp)
  · intro n
    rw [close_iterate s h n, hdrop]
    refine ⟨by rw [hopen], ?_, ?_⟩
    · rw [List.count_append]
      have : List.count Act.closeOnce
          (s.tasks.map (fun (p : Nat × HttpTask) => Act.taskClose p.2.conn)) = 0 := by
        rw [List.count_eq_zero]
        simp
      rw [this]
      simp
    · intro hnd p hp
      rw [List.count_append]
      have hmap : s.tasks.map (fun (p : Nat × HttpTask) => Act.taskClose p.2.conn) =
          (s.tasks.map (fun (p : Nat × HttpTask) => p.2.conn)).map Act.taskClose := by
        simp
      have hnd2 : ((s.tasks.map (fun (p : Nat × HttpTask) => p.2.conn)).map
          Act.taskClose).Nodup :=
        hnd.map (fun x y hxy => by injection hxy)
      rw [hmap, List.count_eq_one_of_mem hnd2
        (List.mem_map_of_mem _ (List.mem_map_of_mem _ hp))]
      simp

/-- The instance of C12 at a registry of two tasks and three calls of `Close`. -/
theorem close_idempotent_witness :
    Nat.iterate close 3
        { State.fresh [] [] [] with tasks := [(7, ⟨1⟩), (9, ⟨2⟩)] } =
      { State.fresh [] [] [] with
        tasks := [(7, ⟨1⟩), (9, ⟨2⟩)]
        closing := 1
        trace := [Act.taskClose 1, Act.taskClose 2, Act.closeOnce] } :=
  ((close_idempotent { State.fresh [] [] [] with tasks := [(7, ⟨1⟩), (9, ⟨2⟩)] } rfl).2.2.2.1
    2).trans (by decide)

/-- C13, as stated, fails: `Close` on a tunnel whose registry holds the task 7 closes that
task and the socket, and the registry still holds the task: `tasksLen()` is 1. -/
theorem close_registry_counterexample :
    close { State.fresh [] [] [] with tasks := [(7, ⟨1⟩)] } =
        { State.fresh [] [] [] with
          tasks := [(7, ⟨1⟩)]
          closing := 1
          trace := [Act.taskClose 1, Act.closeOnce] } ∧
      tasksLen (close { State.fresh [] [] [] with tasks := [(7, ⟨1⟩)] }) = 1 ∧
      tasksLen (close { State.fresh [] [] [] with tasks := [(7, ⟨1⟩)] }) ≠ 0 := by
  decide

theorem mem_insert_of_lookup_none {β : Type} (k : Nat) (v : β) (m : List (Nat × β))
    (h : lookup k m = none) : ∀ p ∈ m, p ∈ insert k v m := by
  intro p hp
  unfold lookup at h
  simp only [Option.map_eq_none'] at h
  have hk := List.find?_eq_none.mp h p hp
  simp only [insert, List.mem_cons, List.mem_filter]
  right
  exact ⟨hp, by simpa using hk⟩

theorem processP2P_tasks (a : Ans) (id n : Nat) (t : Option PeerTask) (ok : Bool) (s : State)
    (m : Nat) (s' : State) (h : processP2P a id n t ok s = some (m, s')) :
    s'.tasks = s.tasks := by
  unfold processP2P at h
  cases ok with
  | false =>
    simp only [Bool.not_false, if_true, Option.bind_eq_bind, Option.some_bind,
      Option.pure_def, Option.some.injEq, Prod.mk.injEq, State.log] at h
    obtain ⟨_, rfl⟩ := h
    simp
  | true =>
    cases t with
    | none => simp at h
    | some t =>
      simp only [Bool.not_true, Bool.false_eq_true, if_false, Option.map_some',
        Option.bind_eq_bind, Option.some_bind, Option.pure_def, Option.some.injEq,
        Prod.mk.injEq] at h
      obtain ⟨_, rfl⟩ := h
      simp

/-- The only change `processData` makes to the registry is the binding of an id that was not
bound: every entry stays. -/
theorem processData_tasks (a : Ans) (taskID n : Nat) (s : State) (r : Processed)
    (h : processData a taskID n s = some r) : ∀ p ∈ s.tasks, p ∈ r.s.tasks := by
  unfold processData at h
  simp only at h
  split at h
  · rw [(copyPayload_locals _ _ _ _ _ h).2.2.2.1]
    exact fun p hp => hp
  · rename_i hlk
    split at h
    · simp only [Option.some.injEq] at h
      subst h
      exact fun p hp => hp
    · split at h
      · split at h
        · simp only [Option.some.injEq] at h
          subst h
          simp [State.log]
        · cases hp : processP2P a taskID n (lookup taskID s.peers).join
              (lookup taskID s.peers).isSome s with
          | none => rw [hp] at h; simp at h
          | some p =>
            obtain ⟨m, s1⟩ := p
            have ht := processP2P_tasks _ _ _ _ _ _ _ _ hp
            rw [hp] at h
            simp only [Option.bind_eq_bind, Option.some_bind, Option.pure_def,
              Option.some.injEq] at h
            subst h
            rw [ht]
            exact fun p hp => hp
      · cases hd : dialLoop a 3 0 (none, none) s with
        | none => simp [hd] at h
        | some p =>
          obtain ⟨⟨task, werr⟩, s1⟩ := p
          have hl := dialLoop_locals a _ _ _ _ _ _ hd
          simp only [hd, Option.bind_eq_bind, Option.some_bind, Option.pure_def] at h
          split at h
          · simp only [Option.some.injEq] at h
            subst h
            simp [hl]
          · cases task with
            | none => simp at h
            | some task =>
              cases hs : s1.service with
              | none => simp [hs] at h
              | some svc =>
                simp only [hs, Option.some_bind] at h
                have hc := (copyPayload_locals _ _ _ _ _ h).2.2.2.1
                simp only [State.log] at hc
                rw [hc, hl.2.2.2.1]
                exact mem_insert_of_lookup_none taskID task s.tasks hlk

theorem dataFrame_tasks (P : Consts) (cl : Client) (a : Ans) (taskID taskOption : Nat)
    (s s' : State) (h : (dataFrame P cl a taskID taskOption s).state = some s') :
    ∀ p ∈ s.tasks, p ∈ s'.tasks := by
  unfold dataFrame at h
  simp only at h
  split at h
  · rename_i s1 hidx
    simp only [Res.state, Option.some.injEq] at h
    subst h
    split at hidx
    · split at hidx
      · simp only [Except.error.injEq] at hidx
        subst hidx
        exact fun p hp => hp
      · split at hidx
        · simp only [Except.error.injEq] at hidx
          subst hidx
          exact fun p hp => hp
        · exact Except.noConfusion hidx
    · exact Except.noConfusion hidx
  · rename_i serviceIndex s1 hidx
    have h1 : s1.tasks = s.tasks := by
      split at hidx
      · split at hidx
        · exact Except.noConfusion hidx
        · split at hidx
          · exact Except.noConfusion hidx
          · simp only [Except.ok.injEq, Prod.mk.injEq] at hidx
            obtain ⟨_, rfl⟩ := hidx
            rfl
      · simp only [Except.ok.injEq, Prod.mk.injEq] at hidx
        obtain ⟨_, rfl⟩ := hidx
        rfl
    rw [← h1]
    split at h
    · simp only [Res.state, Option.some.injEq] at h
      subst h
      exact fun p hp => hp
    · split at h
      · simp [Res.state] at h
      · rename_i service _
        split at h
        · simp only [Res.state, Option.some.injEq] at h
          subst h
          exact fun p hp => hp
        · split at h
          · simp only [Res.state, Option.some.injEq] at h
            subst h
            exact fun p hp => hp
          · split at h
            · simp [Res.state] at h
            · rename_i r hr
              have h2 := processData_tasks _ _ _ _ r hr
              simp only at h2
              split at h
              · simp only [Res.state, Option.some.injEq] at h
                subst h
                exact h2
              · split at h
                · split at h
                  · simp only [Res.state, Option.some.injEq] at h
                    subst h
                    exact h2
                  · simp only [Res.state, Option.some.injEq] at h
                    subst h
                    exact h2
                · simp only [Res.state, Option.some.injEq] at h
                  subst h
                  exact h2

/-- No iteration of the read loop removes an entry of the registry. -/
theorem iter_tasks (P : Consts) (cl : Client) (a : Ans) (s s' : State)
    (h : (iter P cl a s).state = some s') : ∀ p ∈ s.tasks, p ∈ s'.tasks := by
  unfold iter at h
  simp only at h
  split at h
  · rename_i s1 harm
    simp only [Res.state, Option.some.injEq] at h
    subst h
    split at harm
    · split at harm
      · simp only [Except.error.injEq] at harm
        subst harm
        simp [State.log]
      · exact Except.noConfusion harm
    · exact Except.noConfusion harm
  · rename_i s1 harm
    have h1 : s1.tasks = s.tasks := by
      split at harm
      · split at harm
        · exact Except.noConfusion harm
        · simp only [Except.ok.injEq] at harm
          subst harm
          simp [State.log]
      · simp only [Except.ok.injEq] at harm
        subst harm
        rfl
    rw [← h1]
    split at h
    · rename_i e inp _
      have hit : (isTimeout a e { s1 with err := some e, inp := inp }).2.tasks = s1.tasks := by
        cases e with
        | opError op t =>
          cases t <;> simp only [isTimeout] <;> (try split) <;> simp [State.log]
        | writeErr tag => simp [isTimeout]
        | other tag => simp [isTimeout]
      split at h
      · simp only [Res.state, Option.some.injEq] at h
        subst h
        simp [hit]
      · simp only [Res.state, Option.some.injEq] at h
        subst h
        simp [hit]
    · split at h
      · simp only [Res.state, Option.some.injEq] at h
        subst h
        exact fun p hp => hp
      · split_ifs at h
        all_goals first
          | (simp only [Res.state, Option.some.injEq] at h; subst h
             simp [State.log])
          | skip
        all_goals
          repeat' split at h
          all_goals first
            | (simp only [Res.state, Option.some.injEq] at h; subst h
               simp [State.log])
            | (have hdf : _ := dataFrame_tasks _ _ _ _ _ _ _ h
               simpa using hdf)

theorem loop_tasks (P : Consts) (cl : Client) :
    ∀ (as : List Ans) (s s' : State), (loop P cl as s).state = some s' →
      ∀ p ∈ s.tasks, p ∈ s'.tasks
  | [], s, s', h => by
    simp only [loop] at h
    split at h <;>
    · simp only [Res.state, Option.some.injEq] at h
      subst h
      exact fun p hp => hp
  | a :: as, s, s', h => by
    simp only [loop] at h
    split at h
    · cases hi : iter P cl a s with
      | cont s1 =>
        rw [hi] at h
        have h1 := iter_tasks P cl a s s1 (by rw [hi]; rfl)
        have h2 := loop_tasks P cl as s1 s' h
        exact fun p hp => h2 p (h1 p hp)
      | done s1 w =>
        rw [hi] at h
        exact iter_tasks P cl a s s' (by rw [hi]; exact h)
      | panic => rw [hi] at h; simp [Res.state] at h
    · simp only [Res.state, Option.some.injEq] at h
      subst h
      exact fun p hp => hp

theorem close_tasks (s : State) : (close s).tasks = s.tasks := by
  by_cases h : s.closing = 0
  · rw [close_open s h]
  · rw [close_closed s h]

theorem cleanup_tasks (s : State) : (cleanup s).tasks = s.tasks := by
  simp [cleanup, State.log, close_tasks]

theorem readLoop_tasks (P : Consts) (cl : Client) (as : List Ans) (s s' : State)
    (h : readLoop P cl as s = some s') : ∀ p ∈ s.tasks, p ∈ s'.tasks := by
  unfold readLoop at h
  cases hl : loop P cl as s with
  | cont s1 => rw [hl] at h; simp at h
  | done s1 w =>
    rw [hl] at h
    simp only [Option.some.injEq] at h
    subst h
    rw [cleanup_tasks]
    exact loop_tasks P cl as s s1 (by rw [hl]; rfl)
  | panic => rw [hl] at h; simp at h

theorem exits_tasks (ids : List Nat) :
    ∀ s : State, (exits ids s).tasks = s.tasks.filter (fun p => decide (p.1 ∉ ids)) := by
  induction ids with
  | nil => intro s; simp [exits]
  | cons id ids ih =>
    intro s
    have hstep : exits (id :: ids) s = exits ids (remove id s) := rfl
    rw [hstep, ih, remove, List.filter_filter]
    apply List.filter_congr
    intro p _
    by_cases h1 : p.1 = id <;> by_cases h2 : p.1 ∈ ids <;> simp [h1, h2]

theorem filter_keys_append (l1 l2 : List (Nat × HttpTask))
    (hnd : ((l1 ++ l2).map Prod.fst).Nodup) :
    (l1 ++ l2).filter (fun p => decide (p.1 ∉ l2.map Prod.fst)) = l1 := by
  rw [List.map_append] at hnd
  have hdis := (List.nodup_append.mp hnd).2.2
  rw [List.filter_append]
  have e1 : l1.filter (fun p => decide (p.1 ∉ l2.map Prod.fst)) = l1 := by
    apply List.filter_eq_self.mpr
    intro p hp
    simp only [decide_eq_true_eq]
    exact fun hm => hdis (List.mem_map_of_mem Prod.fst hp) hm
  have e2 : l2.filter (fun p => decide (p.1 ∉ l2.map Prod.fst)) = [] := by
    apply List.filter_eq_nil_iff.mpr
    intro p hp
    simp only [decide_eq_true_eq, not_not]
    exact List.mem_map_of_mem Prod.fst hp
  rw [e1, e2, List.append_nil]

theorem filter_keys_take (l : List (Nat × HttpTask)) (k : Nat)
    (hnd : (l.map Prod.fst).Nodup) :
    l.filter (fun p => decide (p.1 ∉ (l.drop k).map Prod.fst)) = l.take k := by
  have hsplit : l.take k ++ l.drop k = l := List.take_append_drop k l
  have key := filter_keys_append (l.take k) (l.drop k) (by rw [hsplit]; exact hnd)
  rw [hsplit] at key
  exact key

/-- C13, amended: `Close` calls `Close` on every task of the registry and removes none of
them: the registry it leaves is the registry it found.  No code of `conn.go` removes an
entry: every entry is still there after an iteration of the read loop and after `readLoop`
with its deferred function.  An entry leaves by its own task's `remove`: after `Close` and
the exits of the tasks `ids` the registry holds exactly the entries whose id is not among
`ids`, so `tasksLen()` is at most what it was, is 0 exactly when every registered task has
left, and takes every value from 0 to the count before the call. -/
theorem close_keeps_registry (s : State) :
    ((close s).tasks = s.tasks ∧ tasksLen (close s) = tasksLen s ∧
        (cleanup s).tasks = s.tasks) ∧
      (s.closing = 0 →
        (close s).trace = s.trace ++
          (s.tasks.map (fun (p : Nat × HttpTask) => Act.taskClose p.2.conn) ++
            [Act.closeOnce])) ∧
      (∀ (P : Consts) (cl : Client) (a : Ans) (s' : State),
        (iter P cl a s).state = some s' → ∀ p ∈ s.tasks, p ∈ s'.tasks) ∧
      (∀ (P : Consts) (cl : Client) (answers : List Ans) (s' : State),
        readLoop P cl answers s = some s' → ∀ p ∈ s.tasks, p ∈ s'.tasks) ∧
      (∀ ids : List Nat,
        (exits ids (close s)).tasks = s.tasks.filter (fun p => decide (p.1 ∉ ids)) ∧
          tasksLen (exits ids (close s)) ≤ tasksLen s ∧
          (tasksLen (exits ids (close s)) = 0 ↔ ∀ p ∈ s.tasks, p.1 ∈ ids)) ∧
      ((s.tasks.map Prod.fst).Nodup → ∀ k, k ≤ tasksLen s →
        tasksLen (exits ((s.tasks.drop k).map Prod.fst) (close s)) = k) := by
  refine ⟨⟨close_tasks s, by simp [tasksLen, close_tasks], cleanup_tasks s⟩, ?_,
    fun P cl a s' h => iter_tasks P cl a s s' h,
    fun P cl answers s' h => readLoop_tasks P cl answers s s' h, ?_, ?_⟩
  · intro h
    rw [close_open s h]
  · intro ids
    have ht := exits_tasks ids (close s)
    rw [close_tasks] at ht
    refine ⟨ht, ?_, ?_⟩
    · simp only [tasksLen, ht]
      exact List.length_filter_le _ _
    · simp only [tasksLen, ht, List.length_eq_zero, List.filter_eq_nil_iff,
        decide_eq_true_eq, not_not]
  · intro hnd k hk
    have ht := exits_tasks ((s.tasks.drop k).map Prod.fst) (close s)
    rw [close_tasks, filter_keys_take s.tasks k hnd] at ht
    simp only [tasksLen, ht, List.length_take]
    exact Nat.min_eq_left hk

/-! ## The read deadline -/

theorem deadlines_append (t u : List Act) : deadlines (t ++ u) = deadlines t ++ deadlines u := by
  simp [deadlines]

theorem deadlines_dialActs (d : DialAns) (svc : Service) : deadlines (dialActs d svc) = [] := by
  unfold dialActs deadlines
  cases d.netDial with
  | error e => simp
  | ok conn => by_cases hu : svc.useLocalAsHTTPHost = true <;> simp [hu]

theorem copyPayload_deadlines (a : Ans) (n : Nat) (task : HttpTask) (s : State) (r : Processed)
    (h : copyPayload a n task s = some r) : deadlines r.s.trace = deadlines s.trace := by
  unfold copyPayload at h
  cases hs : s.service with
  | none => simp [hs] at h
  | some svc =>
    simp only [hs, Option.bind_eq_bind, Option.some_bind, Option.pure_def] at h
    split at h <;>
    · simp only [Option.some.injEq] at h
      subst h
      simp [State.log, deadlines]

theorem processP2P_deadlines (a : Ans) (id n : Nat) (t : Option PeerTask) (ok : Bool)
    (s : State) (m : Nat) (s' : State) (h : processP2P a id n t ok s = some (m, s')) :
    deadlines s'.trace = deadlines s.trace := by
  unfold processP2P at h
  cases ok with
  | false =>
    simp only [Bool.not_false, if_true, Option.bind_eq_bind, Option.some_bind,
      Option.pure_def, Option.some.injEq, Prod.mk.injEq, State.log] at h
    obtain ⟨_, rfl⟩ := h
    simp [deadlines]
  | true =>
    cases t with
    | none => simp at h
    | some t =>
      simp only [Bool.not_true, Bool.false_eq_true, if_false, Option.map_some',
        Option.bind_eq_bind, Option.some_bind, Option.pure_def, Option.some.injEq,
        Prod.mk.injEq] at h
      obtain ⟨_, rfl⟩ := h
      simp [deadlines]

theorem spawnCopy_deadlines (a : Ans) (taskID n : Nat) (task : Option HttpTask) (s : State)
    (r : Processed)
    (h : (task.bind fun task => s.service.bind fun service =>
      copyPayload a n task
        ({ s with tasks := insert taskID task s.tasks }.log
          (Act.spawn taskID task.conn service.localTimeout))) = some r) :
    deadlines r.s.trace = deadlines s.trace := by
  cases task with
  | none => simp at h
  | some task =>
    cases hs : s.service with
    | none => simp [hs] at h
    | some svc =>
      simp only [hs, Option.some_bind] at h
      have hc := copyPayload_deadlines _ _ _ _ _ h
      simpa [State.log, deadlines] using hc

theorem processData_deadlines (a : Ans) (taskID n : Nat) (s : State) (svc : Service)
    (r : Processed) (hsvc : s.service = some svc) (h : processData a taskID n s = some r) :
    deadlines r.s.trace = deadlines s.trace := by
  unfold processData at h
  simp only at h
  split at h
  · exact copyPayload_deadlines _ _ _ _ _ h
  · split at h
    · simp only [Option.some.injEq] at h
      subst h
      simp
    · split at h
      · split at h
        · simp only [Option.some.injEq] at h
          subst h
          simp [State.log, deadlines]
        · cases hp : processP2P a taskID n (lookup taskID s.peers).join
              (lookup taskID s.peers).isSome s with
          | none => rw [hp] at h; simp at h
          | some p =>
            obtain ⟨m, s1⟩ := p
            have hd := processP2P_deadlines _ _ _ _ _ _ _ _ hp
            rw [hp] at h
            simp only [Option.bind_eq_bind, Option.some_bind, Option.pure_def,
              Option.some.injEq] at h
            subst h
            exact hd
      · rw [dialLoop_three a s svc hsvc] at h
        have h0 := deadlines_dialActs (a.dial 0) svc
        have h1 := deadlines_dialActs (a.dial 1) svc
        have h2 := deadlines_dialActs (a.dial 2) svc
        simp only [Option.bind_eq_bind, Option.some_bind, Option.pure_def] at h
        by_cases e0 : dialErr (a.dial 0) svc = none
        · simp only [e0, if_true, ne_eq, not_true_eq_false, if_false] at h
          have hc := spawnCopy_deadlines a taskID n (dialTask (a.dial 0))
            { s with trace := s.trace ++ dialActs (a.dial 0) svc } r h
          simpa [deadlines_append, h0] using hc
        · by_cases e1 : dialErr (a.dial 1) svc = none
          · simp only [e0, e1, if_true, ne_eq, not_true_eq_false, if_false] at h
            have hc := spawnCopy_deadlines a taskID n (dialTask (a.dial 1))
              { s with trace := s.trace ++ dialActs (a.dial 0) svc ++ dialActs (a.dial 1) svc }
              r h
            simpa [deadlines_append, h0, h1] using hc
          · by_cases e2 : dialErr (a.dial 2) svc = none
            · simp only [e0, e1, e2, if_true, ne_eq, not_true_eq_false, if_false] at h
              have hc := spawnCopy_deadlines a taskID n (dialTask (a.dial 2))
                { s with trace := s.trace ++ dialActs (a.dial 0) svc ++
                    dialActs (a.dial 1) svc ++ dialActs (a.dial 2) svc } r h
              simpa [deadlines_append, h0, h1, h2] using hc
            · simp only [e0, e1, e2, if_true, ne_eq, not_false_eq_true, if_false,
                Option.some.injEq] at h
              subst h
              simp [deadlines_append, h0, h1, h2]

theorem dataFrame_deadlines (P : Consts) (cl : Client) (a : Ans) (taskID taskOption : Nat)
    (s s' : State) (h : (dataFrame P cl a taskID taskOption s).state = some s') :
    deadlines s'.trace = deadlines s.trace := by
  unfold dataFrame at h
  simp only at h
  split at h
  · rename_i s1 hidx
    simp only [Res.state, Option.some.injEq] at h
    subst h
    split at hidx
    · split at hidx
      · simp only [Except.error.injEq] at hidx
        subst hidx
        rfl
      · split at hidx
        · simp only [Except.error.injEq] at hidx
          subst hidx
          rfl
        · exact Except.noConfusion hidx
    · exact Except.noConfusion hidx
  · rename_i serviceIndex s1 hidx
    have h1 : s1.trace = s.trace := by
      split at hidx
      · split at hidx
        · exact Except.noConfusion hidx
        · split at hidx
          · exact Except.noConfusion hidx
          · simp only [Except.ok.injEq, Prod.mk.injEq] at hidx
            obtain ⟨_, rfl⟩ := hidx
            rfl
      · simp only [Except.ok.injEq, Prod.mk.injEq] at hidx
        obtain ⟨_, rfl⟩ := hidx
        rfl
    rw [← h1]
    split at h
    · simp only [Res.state, Option.some.injEq] at h
      subst h
      rfl
    · split at h
      · simp [Res.state] at h
      · rename_i service _
        split at h
        · simp only [Res.state, Option.some.injEq] at h
          subst h
          rfl
        · split at h
          · simp only [Res.state, Option.some.injEq] at h
            subst h
            rfl
          · split at h
            · simp [Res.state] at h
            · rename_i r hr
              have h2 := processData_deadlines _ _ _ _ service r rfl hr
              simp only at h2
              split at h
              · simp only [Res.state, Option.some.injEq] at h
                subst h
                exact h2
              · split at h
                · split at h
                  · simp only [Res.state, Option.some.injEq] at h
                    subst h
                    exact h2
                  · simp only [Res.state, Option.some.injEq] at h
                    subst h
                    exact h2
                · simp only [Res.state, Option.some.injEq] at h
                  subst h
                  exact h2

/-- Every iteration of the read loop sets the read deadline once, with the interval
`readTimeout`, when that interval is positive, and never otherwise. -/
theorem iter_deadlines (P : Consts) (cl : Client) (a : Ans) (s s' : State)
    (h : (iter P cl a s).state = some s') :
    deadlines s'.trace = deadlines s.trace ++
      (if readTimeout cl.remoteTimeout > 0 then [readTimeout cl.remoteTimeout] else []) := by
  unfold iter at h
  simp only at h
  split at h
  · rename_i s1 harm
    simp only [Res.state, Option.some.injEq] at h
    subst h
    split at harm
    · rename_i ht
      split at harm
      · simp only [Except.error.injEq] at harm
        subst harm
        simp [State.log, deadlines, ht]
      · exact Except.noConfusion harm
    · exact Except.noConfusion harm
  · rename_i s1 harm
    have h1 : deadlines s1.trace = deadlines s.trace ++
        (if readTimeout cl.remoteTimeout > 0 then [readTimeout cl.remoteTimeout] else []) := by
      split at harm
      · rename_i ht
        split at harm
        · exact Except.noConfusion harm
        · simp only [Except.ok.injEq] at harm
          subst harm
          simp [State.log, deadlines, ht]
      · rename_i ht
        simp only [Except.ok.injEq] at harm
        subst harm
        simp [ht]
    rw [← h1]
    split at h
    · rename_i e inp _
      have hit : deadlines (isTimeout a e { s1 with err := some e, inp := inp }).2.trace =
          deadlines s1.trace := by
        cases e with
        | opError op t =>
          cases t <;> simp only [isTimeout] <;> (try split) <;> simp [State.log, deadlines]
        | writeErr tag => simp [isTimeout]
        | other tag => simp [isTimeout]
      split at h
      · simp only [Res.state, Option.some.injEq] at h
        subst h
        exact hit
      · simp only [Res.state, Option.some.injEq] at h
        subst h
        exact hit
    · split at h
      · simp only [Res.state, Option.some.injEq] at h
        subst h
        rfl
      · split_ifs at h
        all_goals first
          | (simp only [Res.state, Option.some.injEq] at h; subst h
             simp [State.log, deadlines])
          | skip
        all_goals
          repeat' split at h
          all_goals first
            | (simp only [Res.state, Option.some.injEq] at h; subst h
               simp [State.log, deadlines])
            | (have hdf : _ := dataFrame_deadlines _ _ _ _ _ _ _ h
               simpa using hdf)

/-- C17: for `remote_timeout > 0` the interval of every read deadline is `remote_timeout / 2`
when that quotient is positive and `remote_timeout` when it is zero, so it is positive and at
most `remote_timeout`; every iteration of the read loop sets the deadline once, with that
interval.  For `remote_timeout ≤ 0` no iteration sets a read deadline. -/
theorem read_deadline_interval (P : Consts) (cl : Client) (a : Ans) (s s' : State)
    (h : (iter P cl a s).state = some s') :
    (cl.remoteTimeout > 0 →
      readTimeout cl.remoteTimeout =
          (if cl.remoteTimeout / 2 > 0 then cl.remoteTimeout / 2 else cl.remoteTimeout) ∧
        (cl.remoteTimeout / 2 = 0 → readTimeout cl.remoteTimeout = cl.remoteTimeout) ∧
        0 < readTimeout cl.remoteTimeout ∧ readTimeout cl.remoteTimeout ≤ cl.remoteTimeout ∧
        deadlines s'.trace = deadlines s.trace ++ [readTimeout cl.remoteTimeout]) ∧
    (cl.remoteTimeout ≤ 0 → deadlines s'.trace = deadlines s.trace) := by
  have hd := iter_deadlines P cl a s s' h
  constructor
  · intro hrt
    have hpos := readTimeout_pos _ hrt
    simp only [hpos, if_true] at hd
    refine ⟨?_, ?_, hpos, ?_, hd⟩
    · unfold readTimeout
      simp only [hrt, if_true]
      split_ifs <;> first | rfl | omega
    · intro hz
      unfold readTimeout
      simp [hrt, hz]
    · unfold readTimeout
      simp only [hrt, if_true]
      split_ifs <;> omega
  · intro hrt
    have hz : ¬ (readTimeout cl.remoteTimeout > 0) := by
      unfold readTimeout
      simp [not_lt.mpr hrt]
    simpa [hz] using hd

/-- The instance of C17 at `remote_timeout = 200` and a stream that holds one Ready signal:
the deadline is set once, with interval 100. -/
theorem read_deadline_interval_witness :
    deadlines
        ({ State.fresh [] [] [] with
          trace := [Act.setReadDeadline 100, Act.addTunnel] } : State).trace =
      deadlines (State.fresh [] []
        [Tok.byte 255, Tok.byte 255, Tok.byte 255, Tok.byte 253]).trace ++
        [readTimeout 200] :=
  ((read_deadline_interval demoConsts ⟨[120], [], 200, []⟩
    ⟨none, none, false, .ok 0, fun _ => ⟨.ok 0, none⟩, none, none⟩
    (State.fresh [] [] [Tok.byte 255, Tok.byte 255, Tok.byte 255, Tok.byte 253])
    { State.fresh [] [] [] with trace := [Act.setReadDeadline 100, Act.addTunnel] }
    (by decide)).1 (by decide)).2.2.2.2

/-! ## Length prefixes of the handshake -/

/-- C19: whatever the lengths of the client id, of the secret and of a host prefix (the
buffer holding the whole message), `init` writes as length prefix the length of the field
modulo 256 and after it all the bytes of the field.  The prefix is the number of bytes that
follow exactly when the field has at most 255 bytes; for a longer field a reader that takes
as many bytes as the prefix says does not get the field back. -/
theorem init_length_byte (P : Consts) (c : Client) (buf : List Nat)
    (hr : RandomSet c.services) (hbuf : (handshakeBytes P c).length ≤ buf.length) :
    init P c buf =
        some ([P.magicNumber, 0x01] ++ [c.id.length % 256] ++ c.id ++
          [c.secret.length % 256] ++ c.secret ++ servicesBytes P c.id c.services) ∧
      (∀ (pre post : List Service) (s : Service), c.services = pre ++ s :: post →
        s.scheme ≠ "tcp" → s.hostPrefix ≠ c.id →
        init P c buf =
          some ([P.magicNumber, 0x01] ++ [c.id.length % 256] ++ c.id ++
            [c.secret.length % 256] ++ c.secret ++
            ((pre.map (fun x => P.optionAndNextOption ++ announcement P c.id x)).flatten ++
              ((if post = [] then [] else P.optionAndNextOption) ++
                (P.openHost ++ [s.hostPrefix.length % 256] ++ s.hostPrefix) ++
                servicesBytes P c.id post)))) ∧
      (∀ field : List Nat, field.length % 256 = field.length ↔ field.length ≤ 255) ∧
      (∀ field : List Nat, field.take (field.length % 256) = field ↔ field.length ≤ 255) := by
  have h1 : init P c buf =
      some ([P.magicNumber, 0x01] ++ [c.id.length % 256] ++ c.id ++
        [c.secret.length % 256] ++ c.secret ++ servicesBytes P c.id c.services) := by
    rw [init_eq P c buf hr hbuf]
    simp [handshakeBytes, headerBytes]
  have hmod : ∀ n : Nat, n % 256 = n ↔ n ≤ 255 := by
    intro n
    constructor
    · intro h
      have := Nat.mod_lt n (by decide : 0 < 256)
      omega
    · intro h
      exact Nat.mod_eq_of_lt (by omega)
  refine ⟨h1, ?_, fun field => hmod field.length, ?_⟩
  · intro pre post s hs ht hp
    rw [h1, hs, servicesBytes_split]
    simp [announcement, ht, hp]
  · intro field
    rw [List.take_eq_self_iff, ← hmod field.length]
    constructor
    · intro h
      exact le_antisymm (Nat.mod_le _ _) h
    · intro h
      rw [h]

set_option maxRecDepth 100000 in
/-- The instance of C19 at a client id of 256 bytes: its length prefix is 0. -/
theorem init_length_byte_witness :
    init demoConsts ⟨List.replicate 256 97, [115], 0, []⟩ (List.replicate 300 0) =
      some ([0xF0, 0x01] ++ [0] ++ List.replicate 256 97 ++ [1] ++ [115] ++ []) :=
  (init_length_byte demoConsts ⟨List.replicate 256 97, [115], 0, []⟩ (List.replicate 300 0)
    (by decide) (by decide)).1.trans (by decide)

/-! ## Task frames without payload -/

/-- C20: a frame whose signal word is none of the five reserved signals and whose task option
is none of Data, ServicesData and Close takes the 4 bytes of the task id and the 2 bytes of
the option from the stream, sets `lastPing` to 0 and leaves everything else as it was: no
collaborator is called beyond the read deadline, the registry, the peer map, the current
service, `pings` and the draining flag are unchanged, and the loop goes on. -/
theorem unknown_task_option (P : Consts) (cl : Client) (a : Ans) (s : State)
    (t0 t1 t2 t3 o0 o1 : Nat) (rest : List Tok) (hd : a.setReadDeadline = none)
    (hsig : be32 [t0, t1, t2, t3] ∉
      [P.pingSignal, P.closeSignal, P.readySignal, P.errorSignal, P.infoSignal])
    (hopt : be16 [o0, o1] ∉ [P.data, P.servicesData, P.close])
    (hinp : s.inp = Tok.byte t0 :: Tok.byte t1 :: Tok.byte t2 :: Tok.byte t3 ::
      Tok.byte o0 :: Tok.byte o1 :: rest) :
    iter P cl a s =
      Res.cont
        { s with
          lastPing := 0
          err := none
          inp := rest
          trace := s.trace ++
            (if readTimeout cl.remoteTimeout > 0 then
              [Act.setReadDeadline (readTimeout cl.remoteTimeout)] else []) } := by
  simp only [List.mem_cons, List.mem_singleton, List.not_mem_nil, or_false, not_or] at hsig hopt
  obtain ⟨h1, h2, h3, h4, h5⟩ := hsig
  obtain ⟨g1, g2, g3⟩ := hopt
  by_cases ht : readTimeout cl.remoteTimeout > 0
  all_goals
    simp only [iter, ht, hd, hinp, peek, discard, h1, h2, h3, h4, h5, g1, g2, g3,
      State.log, if_true, if_false, ne_eq, not_true_eq_false, or_self] <;>
    simp

/-- The instance of C20 at task 7 and the option `0x0009`. -/
theorem unknown_task_option_witness :
    iter demoConsts ⟨[120], [], 200, []⟩
        ⟨none, none, false, .ok 0, fun _ => ⟨.ok 0, none⟩, none, none⟩
        { State.fresh [] []
            [Tok.byte 0, Tok.byte 0, Tok.byte 0, Tok.byte 7, Tok.byte 0, Tok.byte 9,
              Tok.byte 255] with
          lastPing := 2 } =
      Res.cont
        { State.fresh [] [] [Tok.byte 255] with trace := [Act.setReadDeadline 100] } :=
  (unknown_task_option demoConsts ⟨[120], [], 200, []⟩
    ⟨none, none, false, .ok 0, fun _ => ⟨.ok 0, none⟩, none, none⟩
    { State.fresh [] []
        [Tok.byte 0, Tok.byte 0, Tok.byte 0, Tok.byte 7, Tok.byte 0, Tok.byte 9,
          Tok.byte 255] with
      lastPing := 2 }
    0 0 0 7 0 9 [Tok.byte 255] rfl (by decide) (by decide) rfl).trans (by decide)

/-- C16: a task frame with option Close calls `CloseByRemote` on the task bound to its id
when the id is in the registry, and on no task otherwise; in both cases the registry is as
before, nothing beyond the 4 bytes of the id and the 2 bytes of the option is taken from the
stream, and the loop goes on.  For an id that is not in the registry nothing is done: only
the read deadline was set and `lastPing` is 0, as for every task frame. -/
theorem task_close_frame (P : Consts) (cl : Client) (hP : P.Distinct) (a : Ans) (s : State)
    (t0 t1 t2 t3 o0 o1 : Nat) (rest : List Tok) (hd : a.setReadDeadline = none)
    (hsig : be32 [t0, t1, t2, t3] ∉
      [P.pingSignal, P.closeSignal, P.readySignal, P.errorSignal, P.infoSignal])
    (hopt : be16 [o0, o1] = P.close)
    (hinp : s.inp = Tok.byte t0 :: Tok.byte t1 :: Tok.byte t2 :: Tok.byte t3 ::
      Tok.byte o0 :: Tok.byte o1 :: rest) :
    (∀ t : HttpTask, lookup (be32 [t0, t1, t2, t3]) s.tasks = some t →
      iter P cl a s =
        Res.cont
          { s with
            lastPing := 0
            err := none
            inp := rest
            trace := s.trace ++
              (if readTimeout cl.remoteTimeout > 0 then
                [Act.setReadDeadline (readTimeout cl.remoteTimeout)] else []) ++
              [Act.closeByRemote t.conn] }) ∧
    (lookup (be32 [t0, t1, t2, t3]) s.tasks = none →
      iter P cl a s =
        Res.cont
          { s with
            lastPing := 0
            err := none
            inp := rest
            trace := s.trace ++
              (if readTimeout cl.remoteTimeout > 0 then
                [Act.setReadDeadline (readTimeout cl.remoteTimeout)] else []) }) ∧
    ((∃ s' conn, iter P cl a s = Res.cont s' ∧ Act.closeByRemote conn ∈ s'.trace.drop s.trace.length) ↔
      (lookup (be32 [t0, t1, t2, t3]) s.tasks).isSome = true) := by
  simp only [List.mem_cons, List.mem_singleton, List.not_mem_nil, or_false, not_or] at hsig
  obtain ⟨h1, h2, h3, h4, h5⟩ := hsig
  have hdist := hP.2
  simp only [List.nodup_cons, List.mem_cons, List.mem_singleton, List.not_mem_nil, or_false,
    not_or] at hdist
  have g1 : P.close ≠ P.data := fun h => hdist.1.2 h.symm
  have g2 : P.close ≠ P.servicesData := fun h => hdist.2.1 h.symm
  have hbound : ∀ t : HttpTask, lookup (be32 [t0, t1, t2, t3]) s.tasks = some t →
      iter P cl a s =
        Res.cont
          { s with
            lastPing := 0
            err := none
            inp := rest
            trace := s.trace ++
              (if readTimeout cl.remoteTimeout > 0 then
                [Act.setReadDeadline (readTimeout cl.remoteTimeout)] else []) ++
              [Act.closeByRemote t.conn] } := by
    intro t hl
    by_cases ht : readTimeout cl.remoteTimeout > 0
    all_goals
      simp only [iter, ht, hd, hinp, peek, discard, h1, h2, h3, h4, h5, hopt, g1, g2, hl,
        State.log, if_true, if_false, ne_eq, not_true_eq_false, or_self] <;>
      simp
  have hfree : lookup (be32 [t0, t1, t2, t3]) s.tasks = none →
      iter P cl a s =
        Res.cont
          { s with
            lastPing := 0
            err := none
            inp := rest
            trace := s.trace ++
              (if readTimeout cl.remoteTimeout > 0 then
                [Act.setReadDeadline (readTimeout cl.remoteTimeout)] else []) } := by
    intro hl
    by_cases ht : readTimeout cl.remoteTimeout > 0
    all_goals
      simp only [iter, ht, hd, hinp, peek, discard, h1, h2, h3, h4, h5, hopt, g1, g2, hl,
        State.log, if_true, if_false, ne_eq, not_true_eq_false, or_self] <;>
      simp
  refine ⟨hbound, hfree, ?_⟩
  cases hl : lookup (be32 [t0, t1, t2, t3]) s.tasks with
  | none =>
    simp only [Option.isSome_none, Bool.false_eq_true, iff_false, not_exists, not_and]
    intro s' conn hs'
    rw [hfree hl] at hs'
    simp only [Res.cont.injEq] at hs'
    subst hs'
    by_cases ht : readTimeout cl.remoteTimeout > 0 <;> simp [ht]
  | some t =>
    simp only [Option.isSome_some, iff_true]
    refine ⟨_, t.conn, hbound t hl, ?_⟩
    simp

/-- The instance of C16 at task 7 bound to the connection 1, next to task 9 bound to the
connection 2. -/
theorem task_close_frame_witness :
    iter demoConsts ⟨[120], [], 200, []⟩
        ⟨none, none, false, .ok 0, fun _ => ⟨.ok 0, none⟩, none, none⟩
        { State.fresh [] []
            [Tok.byte 0, Tok.byte 0, Tok.byte 0, Tok.byte 7, Tok.byte 0, Tok.byte 1,
              Tok.byte 255] with
          tasks := [(9, ⟨2⟩), (7, ⟨1⟩)] } =
      Res.cont
        { State.fresh [] [] [Tok.byte 255] with
          tasks := [(9, ⟨2⟩), (7, ⟨1⟩)]
          trace := [Act.setReadDeadline 100, Act.closeByRemote 1] } :=
  ((task_close_frame demoConsts ⟨[120], [], 200, []⟩ (by decide)
    ⟨none, none, false, .ok 0, fun _ => ⟨.ok 0, none⟩, none, none⟩
    { State.fresh [] []
        [Tok.byte 0, Tok.byte 0, Tok.byte 0, Tok.byte 7, Tok.byte 0, Tok.byte 1,
          Tok.byte 255] with
      tasks := [(9, ⟨2⟩), (7, ⟨1⟩)] }
    0 0 0 7 0 1 [Tok.byte 255] rfl (by decide) (by decide) rfl).1 ⟨1⟩ (by decide)).trans
    (by decide)

/-! ## Pings while draining -/

theorem readBytes_payload (rest : List Tok) :
    ∀ payload : List Nat,
      readBytes payload.length (payload.map Tok.byte ++ rest) = (payload, rest, none)
  | [] => by simp [readBytes]
  | b :: bs => by simp [readBytes, readBytes_payload rest bs]

/-- The copy of a payload that the stream holds: `k` bytes are delivered and taken from the
stream, and `N` is lowered by `k`. -/
theorem writeTo_payload (sink : Option (Nat × Err)) (payload : List Nat) (rest : List Tok) :
    ∃ k, k ≤ payload.length ∧
      writeTo sink payload.length (payload.map Tok.byte ++ rest) =
        ((writeTo sink payload.length (payload.map Tok.byte ++ rest)).1, payload.take k,
          payload.length - k, (payload.drop k).map Tok.byte ++ rest) ∧
      (sink = none → k = payload.length) := by
  cases sink with
  | none =>
    refine ⟨payload.length, le_refl _, ?_, fun _ => rfl⟩
    simp [writeTo, readBytes_payload]
  | some p =>
    obtain ⟨k, e⟩ := p
    by_cases hk : k < payload.length
    · refine ⟨k, le_of_lt hk, ?_, fun h => by simp at h⟩
      simp [writeTo, readBytes_payload, hk, List.drop_append_of_le_length, le_of_lt hk,
        List.map_drop]
    · refine ⟨payload.length, le_refl _, ?_, fun h => by simp at h⟩
      simp [writeTo, readBytes_payload, hk]

/-- C14: for a data frame whose task id is bound in the registry, `processData` is the copy of
the payload into the task bound to the id: it dials nothing, its result does not depend on
the peer map, on the STUN list or on the first bytes of the payload, the registry is as
before, and the bytes of the payload are handed to the connection of that task (all of them
when the writer takes them and the stream holds them). -/
theorem bound_task_continues (a : Ans) (taskID n : Nat) (s : State) (task : HttpTask)
    (svc : Service) (hreg : lookup taskID s.tasks = some task) (hsvc : s.service = some svc) :
    processData a taskID n s = copyPayload a n task s ∧
    ∃ r, processData a taskID n s = some r ∧
      r.s.tasks = s.tasks ∧ lookup taskID r.s.tasks = some task ∧ r.s.peers = s.peers ∧
      r.s.trace = s.trace ++ Act.writeTo task.conn (writeTo a.sink n s.inp).2.1 ::
        (if svc.localTimeout > 0 then [Act.taskSetReadDeadline task.conn svc.localTimeout]
          else []) ∧
      dialCount (r.s.trace.drop s.trace.length) = 0 ∧
      (∀ (peers : List (Nat × Option PeerTask)) (stuns : List String),
        processData a taskID n { s with peers := peers, stuns := stuns } =
          some { r with s := { r.s with peers := peers, stuns := stuns } }) ∧
      (∀ (payload : List Nat) (rest : List Tok), a.sink = none → n = payload.length →
        s.inp = payload.map Tok.byte ++ rest →
        r.readErr = none ∧ r.n = 0 ∧ r.s.inp = rest ∧
          r.s.trace = s.trace ++ Act.writeTo task.conn payload ::
            (if svc.localTimeout > 0 then
              [Act.taskSetReadDeadline task.conn svc.localTimeout] else [])) := by
  refine ⟨by simp [processData, hreg], ?_⟩
  obtain ⟨r, h, h1, h2, h3, h4, h5, h6, h7⟩ := processData_bound a taskID n s task svc hreg hsvc
  refine ⟨r, h, h5, by rw [h5, hreg], h6, h7, ?_, ?_, ?_⟩
  · rw [h7]
    by_cases hl : svc.localTimeout > 0 <;> simp [dialCount, hl]
  · intro peers stuns
    have hr : r = (⟨(classify (writeTo a.sink n s.inp).1).1,
        (if svc.localTimeout > 0 then a.backendDeadline
          else (classify (writeTo a.sink n s.inp).1).2),
        (writeTo a.sink n s.inp).2.2.1,
        { s with
          inp := (writeTo a.sink n s.inp).2.2.2
          trace := s.trace ++ Act.writeTo task.conn (writeTo a.sink n s.inp).2.1 ::
            (if svc.localTimeout > 0 then
              [Act.taskSetReadDeadline task.conn svc.localTimeout] else []) }⟩ : Processed) := by
      have h' := h
      by_cases hl : svc.localTimeout > 0 <;>
        simp [processData, copyPayload, hreg, hsvc, hl, State.log] at h' <;>
        simp [← h', hl, hsvc]
    rw [hr]
    by_cases hl : svc.localTimeout > 0 <;>
      simp [processData, copyPayload, hreg, hsvc, hl, State.log]
  · intro payload rest hsink hn hinp
    obtain ⟨k, _, hw, hk⟩ := writeTo_payload a.sink payload rest
    have hk' := hk hsink
    subst hk'
    rw [hn, hinp] at h1 h3 h4 h7
    rw [hw] at h3 h4 h7
    have he : (writeTo a.sink payload.length (payload.map Tok.byte ++ rest)).1 = none := by
      simp [writeTo, hsink, readBytes_payload]
    rw [he] at h1
    refine ⟨by simpa [classify] using h1, by simpa using h3, by simpa using h4, ?_⟩
    simpa using h7

/-- The instance of C14 at task 7 bound to the connection 1, a payload that begins with
`58 50`, no STUN server and an empty peer map: the payload goes to the connection 1. -/
theorem bound_task_continues_witness :
    processData ⟨none, none, false, .ok 0, fun _ => ⟨.ok 0, none⟩, none, none⟩ 7 4
        { State.fresh [] [] [Tok.byte 0x58, Tok.byte 0x50, Tok.byte 0, Tok.byte 0] with
          tasks := [(7, ⟨1⟩)]
          service := some ⟨"http", "127.0.0.1:80", none, 0, [120], false, 0⟩ } =
      some ⟨none, none, 0,
        { State.fresh [] [] [] with
          tasks := [(7, ⟨1⟩)]
          service := some ⟨"http", "127.0.0.1:80", none, 0, [120], false, 0⟩
          trace := [Act.writeTo 1 [0x58, 0x50, 0, 0]] }⟩ :=
  (bound_task_continues ⟨none, none, false, .ok 0, fun _ => ⟨.ok 0, none⟩, none, none⟩ 7 4
    { State.fresh [] [] [Tok.byte 0x58, Tok.byte 0x50, Tok.byte 0, Tok.byte 0] with
      tasks := [(7, ⟨1⟩)]
      service := some ⟨"http", "127.0.0.1:80", none, 0, [120], false, 0⟩ }
    ⟨1⟩ ⟨"http", "127.0.0.1:80", none, 0, [120], false, 0⟩ (by decide) rfl).1.trans
    (by decide)

theorem copyPayload_shape (a : Ans) (n : Nat) (task : HttpTask) (s : State) (svc : Service)
    (hsvc : s.service = some svc) :
    ∃ r, copyPayload a n task s = some r ∧ r.n = (writeTo a.sink n s.inp).2.2.1 ∧
      r.s.inp = (writeTo a.sink n s.inp).2.2.2 := by
  by_cases hl : svc.localTimeout > 0 <;> simp [copyPayload, hsvc, hl, State.log]

theorem processP2P_shape (a : Ans) (id n : Nat) (t : Option PeerTask) (ok : Bool) (s : State)
    (h : ok = false ∨ t ≠ none) :
    ∃ m s', processP2P a id n t ok s = some (m, s') ∧ m = (writeTo a.sink n s.inp).2.2.1 ∧
      s'.inp = (writeTo a.sink n s.inp).2.2.2 := by
  cases ok with
  | false =>
    exact ⟨(writeTo a.sink n s.inp).2.2.1,
      { s with
        peers := insert id (some ⟨id⟩) s.peers
        inp := (writeTo a.sink n s.inp).2.2.2
        trace := s.trace ++ [Act.acceptCh id, Act.pipeWrite id (writeTo a.sink n s.inp).2.1] },
      by simp [processP2P, State.log], rfl, rfl⟩
  | true =>
    cases t with
    | none => simp at h
    | some t =>
      exact ⟨(writeTo a.sink n s.inp).2.2.1,
        { s with
          inp := (writeTo a.sink n s.inp).2.2.2
          trace := s.trace ++ [Act.pipeWrite t.id (writeTo a.sink n s.inp).2.1] },
        by simp [processP2P], rfl, rfl⟩

/-- With a current service `processData` returns, and unless it returns a read error it has
either left the limited reader alone or run one copy of the payload. -/
theorem processData_shape (a : Ans) (taskID n : Nat) (s : State) (svc : Service)
    (hsvc : s.service = some svc) :
    ∃ r, processData a taskID n s = some r ∧
      (r.readErr ≠ none ∨ (r.n = n ∧ r.s.inp = s.inp) ∨
        (r.n = (writeTo a.sink n s.inp).2.2.1 ∧ r.s.inp = (writeTo a.sink n s.inp).2.2.2)) := by
  unfold processData
  simp only
  split
  · obtain ⟨r, h, h1, h2⟩ := copyPayload_shape a n _ s svc hsvc
    exact ⟨r, h, Or.inr (Or.inr ⟨h1, h2⟩)⟩
  · split
    · exact ⟨_, rfl, Or.inl (by simp)⟩
    · split
      · rename_i hcond
        split
        · exact ⟨_, rfl, Or.inr (Or.inl ⟨rfl, by simp [State.log]⟩)⟩
        · have hok : (lookup taskID s.peers).isSome = false ∨
              (lookup taskID s.peers).join ≠ none := by
            rcases hcond with h | ⟨_, h⟩
            · exact Or.inr h
            · exact Or.inl (by simpa using h)
          obtain ⟨m, s', hp, hm, hi⟩ := processP2P_shape a taskID n
            (lookup taskID s.peers).join (lookup taskID s.peers).isSome s hok
          rw [hp]
          exact ⟨_, rfl, Or.inr (Or.inr ⟨hm, hi⟩)⟩
      · rw [dialLoop_three a s svc hsvc]
        simp only [Option.bind_eq_bind, Option.some_bind, Option.pure_def]
        by_cases e0 : dialErr (a.dial 0) svc = none
        · obtain ⟨task, ht⟩ := dialTask_of_ok _ _ e0
          obtain ⟨r, h, h1, h2⟩ := copyPayload_shape a n task
            ({ s with trace := s.trace ++ dialActs (a.dial 0) svc,
                      tasks := insert taskID task s.tasks }.log
              (Act.spawn taskID task.conn svc.localTimeout)) svc (by simp [State.log, hsvc])
          refine ⟨r, ?_, Or.inr (Or.inr ⟨h1, h2⟩)⟩
          simp [e0, ht, hsvc, State.log, ← h]
        · by_cases e1 : dialErr (a.dial 1) svc = none
          · obtain ⟨task, ht⟩ := dialTask_of_ok _ _ e1
            obtain ⟨r, h, h1, h2⟩ := copyPayload_shape a n task
              ({ s with trace := s.trace ++ dialActs (a.dial 0) svc ++ dialActs (a.dial 1) svc,
                        tasks := insert taskID task s.tasks }.log
                (Act.spawn taskID task.conn svc.localTimeout)) svc (by simp [State.log, hsvc])
            refine ⟨r, ?_, Or.inr (Or.inr ⟨h1, h2⟩)⟩
            simp [e0, e1, ht, hsvc, State.log, ← h]
          · by_cases e2 : dialErr (a.dial 2) svc = none
            · obtain ⟨task, ht⟩ := dialTask_of_ok _ _ e2
              obtain ⟨r, h, h1, h2⟩ := copyPayload_shape a n task
                ({ s with trace := s.trace ++ dialActs (a.dial 0) svc ++
                            dialActs (a.dial 1) svc ++ dialActs (a.dial 2) svc,
                          tasks := insert taskID task s.tasks }.log
                  (Act.spawn taskID task.conn svc.localTimeout)) svc
                (by simp [State.log, hsvc])
              refine ⟨r, ?_, Or.inr (Or.inr ⟨h1, h2⟩)⟩
              simp [e0, e1, e2, ht, hsvc, State.log, ← h]
            · simp only [e0, e1, e2, if_false, ne_eq, not_false_eq_true, if_true]
              exact ⟨_, rfl, Or.inr (Or.inl ⟨rfl, rfl⟩)⟩

/-! ## The service index -/

theorem dataFrame_no_panic (P : Consts) (cl : Client) (a : Ans) (taskID taskOption : Nat)
    (s : State) : dataFrame P cl a taskID taskOption s ≠ Res.panic := by
  unfold dataFrame
  simp only
  split
  · simp
  · rename_i serviceIndex s1 _
    split
    · simp
    · rename_i hlt
      have hin : serviceIndex < cl.services.length :=
        lt_of_lt_of_le (not_le.mp hlt) (Nat.mod_le _ _)
      split
      · rename_i hnone
        rw [List.get?_eq_get hin] at hnone
        exact Option.noConfusion hnone
      · rename_i service _
        split
        · simp
        · split
          · simp
          · rename_i _ pb _ _ _ inp _
            obtain ⟨r, hr, _⟩ := processData_shape a taskID (be32 pb)
              { s1 with service := some service, err := none, inp := inp } service rfl
            split
            · rename_i hnone
              rw [hr] at hnone
              exact Option.noConfusion hnone
            · split_ifs
              all_goals first
                | exact fun h => Res.noConfusion h
                | (split <;> exact fun h => Res.noConfusion h)

theorem processP2P_service (a : Ans) (id n : Nat) (t : Option PeerTask) (ok : Bool)
    (s : State) (m : Nat) (s' : State) (h : processP2P a id n t ok s = some (m, s')) :
    s'.service = s.service ∧ s'.tasks = s.tasks := by
  unfold processP2P at h
  cases ok with
  | false =>
    simp only [Bool.not_false, if_true, Option.bind_eq_bind, Option.some_bind,
      Option.pure_def, Option.some.injEq, Prod.mk.injEq, State.log] at h
    obtain ⟨_, rfl⟩ := h
    simp
  | true =>
    cases t with
    | none => simp at h
    | some t =>
      simp only [Bool.not_true, Bool.false_eq_true, if_false, Option.map_some',
        Option.bind_eq_bind, Option.some_bind, Option.pure_def, Option.some.injEq,
        Prod.mk.injEq] at h
      obtain ⟨_, rfl⟩ := h
      simp

/-- `processData` leaves the current service alone. -/
theorem processData_service (a : Ans) (taskID n : Nat) (s : State) (r : Processed)
    (h : processData a taskID n s = some r) : r.s.service = s.service := by
  unfold processData at h
  simp only at h
  split at h
  · exact (copyPayload_locals _ _ _ _ _ h).2.2.2.2.2
  · split at h
    · simp only [Option.some.injEq] at h
      subst h
      rfl
    · split at h
      · split at h
        · simp only [Option.some.injEq] at h
          subst h
          rfl
        · cases hp : processP2P a taskID n (lookup taskID s.peers).join
              (lookup taskID s.peers).isSome s with
          | none => rw [hp] at h; simp at h
          | some p =>
            obtain ⟨m, s1⟩ := p
            have hs := (processP2P_service _ _ _ _ _ _ _ _ hp).1
            rw [hp] at h
            simp only [Option.bind_eq_bind, Option.some_bind, Option.pure_def,
              Option.some.injEq] at h
            subst h
            exact hs
      · cases hd : dialLoop a 3 0 (none, none) s with
        | none => simp [hd] at h
        | some p =>
          obtain ⟨⟨task, werr⟩, s1⟩ := p
          have hl := (dialLoop_locals a _ _ _ _ _ _ hd).2.2.2.2.2.1
          simp only [hd, Option.bind_eq_bind, Option.some_bind, Option.pure_def] at h
          split at h
          · simp only [Option.some.injEq] at h
            subst h
            exact hl
          · cases task with
            | none => simp at h
            | some task =>
              cases hs : s1.service with
              | none => simp [hs] at h
              | some svc =>
                simp only [hs, Option.some_bind] at h
                have hc := (copyPayload_locals _ _ _ _ _ h).2.2.2.2.2
                simp only [State.log] at hc
                rw [hc, ← hl, hs]

theorem iter_no_panic (P : Consts) (cl : Client) (a : Ans) (s : State) :
    iter P cl a s ≠ Res.panic := by
  unfold iter
  simp only
  repeat' split
  all_goals first
    | exact fun h => Res.noConfusion h
    | exact dataFrame_no_panic _ _ _ _ _ _

/-- C18: whenever the read loop passes the bounds check and takes `services[serviceIndex]`,
the index is below the length of the service list, whatever that length, also when it is
above 65535 and its 16-bit conversion wraps around: the check compares with the length
modulo 65536, which is at most the length.  So neither the data branch nor an iteration of
the read loop ever panics. -/
theorem service_index_in_bounds (P : Consts) (cl : Client) (a : Ans) (taskID taskOption : Nat)
    (s : State) :
    (∀ serviceIndex : Nat, ¬ (serviceIndex ≥ cl.services.length % 65536) →
      serviceIndex < cl.services.length ∧
        ∃ service, cl.services.get? serviceIndex = some service) ∧
    dataFrame P cl a taskID taskOption s ≠ Res.panic ∧
    iter P cl a s ≠ Res.panic ∧
    (∀ s', dataFrame P cl a taskID taskOption s = Res.cont s' →
      ∃ i, i < cl.services.length ∧ s'.service = cl.services.get? i) ∧
    (cl.services.length = 65537 →
      ∀ serviceIndex : Nat, ¬ (serviceIndex ≥ cl.services.length % 65536) ↔
        serviceIndex = 0) := by
  have hidx : ∀ serviceIndex : Nat, ¬ (serviceIndex ≥ cl.services.length % 65536) →
      serviceIndex < cl.services.length ∧
        ∃ service, cl.services.get? serviceIndex = some service := by
    intro i hi
    have hin : i < cl.services.length := lt_of_lt_of_le (not_le.mp hi) (Nat.mod_le _ _)
    exact ⟨hin, _, List.get?_eq_get hin⟩
  refine ⟨hidx, dataFrame_no_panic P cl a taskID taskOption s, iter_no_panic P cl a s, ?_,
    fun hlen i => by rw [hlen]; omega⟩
  intro s' h
  unfold dataFrame at h
  simp only at h
  split at h
  · exact Res.noConfusion h
  · rename_i serviceIndex s1 _
    split at h
    · exact Res.noConfusion h
    · rename_i hlt
      have hin := (hidx serviceIndex hlt).1
      refine ⟨serviceIndex, hin, ?_⟩
      split at h
      · exact Res.noConfusion h
      · rename_i service hget
        rw [hget]
        split at h
        · exact Res.noConfusion h
        · split at h
          · exact Res.noConfusion h
          · split at h
            · exact Res.noConfusion h
            · rename_i r hr
              have hsv := processData_service _ _ _ _ _ hr
              simp only at hsv
              split_ifs at h
              · split at h
                · exact Res.noConfusion h
                · simp only [Res.cont.injEq] at h
                  subst h
                  exact hsv
              · simp only [Res.cont.injEq] at h
                subst h
                exact hsv

/-! ## The payload is always consumed -/

/-- With the payload in the stream, `processData` returns, and unless it returns a read error
what it left of the payload is what the discard of `r.N` bytes takes. -/
theorem processData_consumes (a : Ans) (taskID : Nat) (s : State) (svc : Service)
    (payload : List Nat) (rest : List Tok) (hsvc : s.service = some svc)
    (hinp : s.inp = payload.map Tok.byte ++ rest) :
    ∃ r, processData a taskID payload.length s = some r ∧
      (r.readErr = none →
        (r.n = 0 ∧ r.s.inp = rest) ∨ (r.n > 0 ∧ discard r.n r.s.inp = (none, rest))) := by
  obtain ⟨r, hr, hshape⟩ := processData_shape a taskID payload.length s svc hsvc
  refine ⟨r, hr, fun hnone => ?_⟩
  have hfin : ∀ k, k ≤ payload.length → r.n = payload.length - k →
      r.s.inp = (payload.drop k).map Tok.byte ++ rest →
      (r.n = 0 ∧ r.s.inp = rest) ∨ (r.n > 0 ∧ discard r.n r.s.inp = (none, rest)) := by
    intro k hk hn hi
    by_cases hz : r.n = 0
    · left
      have hk' : k = payload.length := by omega
      subst hk'
      refine ⟨hz, ?_⟩
      rw [hi]
      simp
    · right
      refine ⟨Nat.pos_of_ne_zero hz, ?_⟩
      have hlen : (payload.drop k).length = r.n := by
        rw [List.length_drop, hn]
      rw [hi, ← hlen]
      exact discard_bytes rest (payload.drop k)
  rcases hshape with h | ⟨h1, h2⟩ | ⟨h1, h2⟩
  · exact absurd hnone h
  · exact hfin 0 (Nat.zero_le _) (by simpa using h1) (by simpa [hinp] using h2)
  · obtain ⟨k, hk, hw, _⟩ := writeTo_payload a.sink payload rest
    rw [hinp, hw] at h1 h2
    exact hfin k hk h1 h2

/-- C11: for a Data or ServicesData frame with declared length `N` whose `N` payload bytes
are in the stream, `processData` returns; when it returns no read error the iteration goes
on and the stream is left at the byte right after the payload, whatever the writer took
(all, a part, or nothing as after three failed dials or a refused P2P frame); when it returns
a read error the loop ends with that outcome. -/
theorem payload_consumed (P : Consts) (cl : Client) (hP : P.Distinct) (a : Ans) (s : State)
    (t0 t1 t2 t3 o0 o1 l0 l1 l2 l3 : Nat) (payload : List Nat) (svc : Service)
    (hd : a.setReadDeadline = none)
    (hsig : be32 [t0, t1, t2, t3] ∉
      [P.pingSignal, P.closeSignal, P.readySignal, P.errorSignal, P.infoSignal])
    (hl : be32 [l0, l1, l2, l3] = payload.length) :
    (∀ rest : List Tok, be16 [o0, o1] = P.data → cl.services.get? 0 = some svc →
      cl.services.length % 65536 ≠ 0 →
      s.inp = [Tok.byte t0, Tok.byte t1, Tok.byte t2, Tok.byte t3, Tok.byte o0, Tok.byte o1,
        Tok.byte l0, Tok.byte l1, Tok.byte l2, Tok.byte l3] ++ (payload.map Tok.byte ++ rest) →
      ∃ r, processData a (be32 [t0, t1, t2, t3]) payload.length
          { s with
            lastPing := 0
            err := none
            service := some svc
            inp := payload.map Tok.byte ++ rest
            trace := s.trace ++
              (if readTimeout cl.remoteTimeout > 0 then
                [Act.setReadDeadline (readTimeout cl.remoteTimeout)] else []) } = some r ∧
        (r.readErr = none →
          ∃ s', iter P cl a s = Res.cont s' ∧ s'.inp = rest ∧ s'.tasks = r.s.tasks ∧
            s'.trace = r.s.trace) ∧
        (r.readErr ≠ none → ∃ s', iter P cl a s = Res.done s' Exit.readErr)) ∧
    (∀ (i0 i1 : Nat) (rest : List Tok), be16 [o0, o1] = P.servicesData →
      cl.services.get? (be16 [i0, i1]) = some svc →
      be16 [i0, i1] < cl.services.length % 65536 →
      s.inp = [Tok.byte t0, Tok.byte t1, Tok.byte t2, Tok.byte t3, Tok.byte o0, Tok.byte o1,
        Tok.byte i0, Tok.byte i1, Tok.byte l0, Tok.byte l1, Tok.byte l2, Tok.byte l3] ++
        (payload.map Tok.byte ++ rest) →
      ∃ r, processData a (be32 [t0, t1, t2, t3]) payload.length
          { s with
            lastPing := 0
            err := none
            service := some svc
            inp := payload.map Tok.byte ++ rest
            trace := s.trace ++
              (if readTimeout cl.remoteTimeout > 0 then
                [Act.setReadDeadline (readTimeout cl.remoteTimeout)] else []) } = some r ∧
        (r.readErr = none →
          ∃ s', iter P cl a s = Res.cont s' ∧ s'.inp = rest ∧ s'.tasks = r.s.tasks ∧
            s'.trace = r.s.trace) ∧
        (r.readErr ≠ none → ∃ s', iter P cl a s = Res.done s' Exit.readErr)) := by
  simp only [List.mem_cons, List.mem_singleton, List.not_mem_nil, or_false, not_or] at hsig
  obtain ⟨h1, h2, h3, h4, h5⟩ := hsig
  have hne : P.servicesData ≠ P.data := by
    have := hP.2
    simp only [List.nodup_cons, List.mem_cons, not_or] at this
    exact fun h => this.1.1 h.symm
  have tail : ∀ (X : State) (rest : List Tok), X.service = some svc →
      X.inp = payload.map Tok.byte ++ rest →
      ∃ r, processData a (be32 [t0, t1, t2, t3]) payload.length X = some r ∧
        (r.readErr = none →
          ∃ s', (match processData a (be32 [t0, t1, t2, t3]) payload.length X with
            | none => Res.panic
            | some r =>
              if r.readErr ≠ none then Res.done { r.s with err := r.writeErr } Exit.readErr
              else if r.n > 0 then
                match discard r.n r.s.inp with
                | (some e, inp) => Res.done { r.s with err := some e, inp := inp } Exit.io
                | (none, inp) => Res.cont { r.s with err := none, inp := inp }
              else Res.cont r.s) = Res.cont s' ∧ s'.inp = rest ∧ s'.tasks = r.s.tasks ∧
            s'.trace = r.s.trace) ∧
        (r.readErr ≠ none →
          ∃ s', (match processData a (be32 [t0, t1, t2, t3]) payload.length X with
            | none => Res.panic
            | some r =>
              if r.readErr ≠ none then Res.done { r.s with err := r.writeErr } Exit.readErr
              else if r.n > 0 then
                match discard r.n r.s.inp with
                | (some e, inp) => Res.done { r.s with err := some e, inp := inp } Exit.io
                | (none, inp) => Res.cont { r.s with err := none, inp := inp }
              else Res.cont r.s) = Res.done s' Exit.readErr) := by
    intro X rest hX hXi
    obtain ⟨r, hr, hcons⟩ := processData_consumes a (be32 [t0, t1, t2, t3]) X svc payload rest
      hX hXi
    refine ⟨r, hr, ?_, ?_⟩
    · intro hnone
      rcases hcons hnone with ⟨hz, hi⟩ | ⟨hpos, hdis⟩
      · exact ⟨r.s, by simp [hr, hnone, hz], hi, rfl, rfl⟩
      · exact ⟨{ r.s with err := none, inp := rest }, by simp [hr, hnone, hpos, hdis], rfl, rfl,
          rfl⟩
    · intro hsome
      exact ⟨{ r.s with err := r.writeErr }, by simp [hr, hsome]⟩
  constructor
  · intro rest hopt hsvc hlen hinp
    have hge : ¬ (0 ≥ cl.services.length % 65536) := by omega
    simp only [List.cons_append, List.nil_append] at hinp
    by_cases ht : readTimeout cl.remoteTimeout > 0
    all_goals
      simp only [iter, dataFrame, ht, hd, hinp, peek, discard, h1, h2, h3, h4, h5, hopt,
        State.log, if_true, if_false, ne_eq, not_true_eq_false, true_or, hge, hsvc, hl,
        List.append_nil]
      exact tail _ rest rfl rfl
  · intro i0 i1 rest hopt hsvc hlen hinp
    have hge : ¬ (be16 [i0, i1] ≥ cl.services.length % 65536) := by omega
    simp only [List.cons_append, List.nil_append] at hinp
    by_cases ht : readTimeout cl.remoteTimeout > 0
    all_goals
      simp only [iter, dataFrame, ht, hd, hinp, peek, discard, h1, h2, h3, h4, h5, hopt, hne,
        State.log, if_true, if_false, ne_eq, not_true_eq_false, not_false_eq_true, or_true,
        hge, hsvc, hl, List.append_nil]
      exact tail _ rest rfl rfl

/-- The instance of C11 at the frame (task 7, Data, length 5, `"hello"`) whose task is bound
to a writer that takes 2 bytes and then fails with a write error: the loop goes on at the
byte after the payload. -/
theorem payload_consumed_witness :
    ∃ s', iter demoConsts
        ⟨[120], [], 200, [⟨"http", "127.0.0.1:80", none, 0, [120], false, 0⟩]⟩
        ⟨none, none, false, .ok 0, fun _ => ⟨.ok 0, none⟩, some (2, Err.writeErr 0), none⟩
        { State.fresh [] []
            ([Tok.byte 0, Tok.byte 0, Tok.byte 0, Tok.byte 7, Tok.byte 0, Tok.byte 0,
              Tok.byte 0, Tok.byte 0, Tok.byte 0, Tok.byte 5] ++
              (([104, 101, 108, 108, 111] : List Nat).map Tok.byte ++ [Tok.byte 255])) with
          tasks := [(7, ⟨1⟩)] } = Res.cont s' ∧
      s'.inp = [Tok.byte 255] := by
  obtain ⟨r, hr, hc, _⟩ :=
    (payload_consumed demoConsts
      ⟨[120], [], 200, [⟨"http", "127.0.0.1:80", none, 0, [120], false, 0⟩]⟩ (by decide)
      ⟨none, none, false, .ok 0, fun _ => ⟨.ok 0, none⟩, some (2, Err.writeErr 0), none⟩
      { State.fresh [] []
          ([Tok.byte 0, Tok.byte 0, Tok.byte 0, Tok.byte 7, Tok.byte 0, Tok.byte 0,
            Tok.byte 0, Tok.byte 0, Tok.byte 0, Tok.byte 5] ++
            (([104, 101, 108, 108, 111] : List Nat).map Tok.byte ++ [Tok.byte 255])) with
        tasks := [(7, ⟨1⟩)] }
      0 0 0 7 0 0 0 0 0 5 [104, 101, 108, 108, 111]
      ⟨"http", "127.0.0.1:80", none, 0, [120], false, 0⟩ rfl (by decide) (by decide)).1
      [Tok.byte 255] (by decide) rfl (by decide) rfl
  have e := congrArg (Option.map Processed.readErr) hr
  have hre : some r.readErr = some none := e.symm.trans (by decide)
  obtain ⟨s', h1, h2, _⟩ := hc (Option.some.inj hre)
  exact ⟨s', h1, h2⟩

end Gt
